import Mathlib

set_option maxHeartbeats 1000000

namespace PropertySaleContract

/-- Maximum value of an unsigned 64-bit integer; audit log counters saturate here. -/
def U64MAX : Nat := 18446744073709551615

/-- Saturating 64-bit addition, as used on audit log counters and query bounds. -/
def satAdd (a b : Nat) : Nat := min (a + b) U64MAX

/-- Structural error type of the contract. -/
inductive ContractError
  | Unauthorized
  | ContractPaused
  | InvalidInput
  | ProcessingFailed
deriving DecidableEq

/-- Currency codes supported by Money. -/
inductive CurrencyCode
  | EUR
  | GBP
  | USD
deriving DecidableEq

/-- Countries for property addresses. -/
inductive Country
  | UK
  | USA
  | AUSTRALIA
  | FRANCE
  | GERMANY
  | ITALY
deriving DecidableEq

/-- Actions on an offer. -/
inductive OfferAction
  | Submit
  | Accept
  | Reject
  | Cancel
deriving DecidableEq

/-- Status of an offer. -/
inductive OfferStatus
  | Pending
  | Accepted
  | Rejected
  | Cancelled
deriving DecidableEq

/-- Lifecycle status of the contract. -/
inductive ContractStatus
  | Draft
  | UnderOffer
  | Signing
  | Signed
  | Superseded
  | Cancelled
  | Paused
deriving DecidableEq

/-- Monetary amount; the u128 amount is modelled as Nat (only equality is used). -/
structure Money where
  amount : Nat
  currency_code : CurrencyCode
deriving DecidableEq

/-- An offer on the property. -/
structure Offer where
  offer : Money
  offer_status : OfferStatus
  offer_date : Nat
deriving DecidableEq

/-- Postal address of the property. -/
structure PropertyAddress where
  address_line1 : String
  address_line2 : String
  city : String
  post_code : String
  county : String
  country : Country
deriving DecidableEq

/-- A party to the agreement; wallet_address is the opaque AccountId, modelled as Nat. -/
structure Party where
  party_id : String
  full_name : String
  email : String
  mobile : String
  address : PropertyAddress
  wallet_address : Nat
  signed_at : Option Nat
deriving DecidableEq

/-- A pending, not yet persisted record of one field mutation. -/
structure FieldChange where
  field_name : String
  old_value : String
  new_value : String
deriving DecidableEq

/-- Audit log entry: a function call embedding buffered field changes, or a direct field change. -/
inductive AuditLogEntry
  | FunctionCall (caller : Nat) (timestamp : Nat) (function_name : String)
      (request_id : Nat) (field_changes : List FieldChange)
  | DirectFieldChange (field_name : String) (changed_by : Nat)
      (old_value : String) (new_value : String) (block_number : Nat) (timestamp : Nat)
deriving DecidableEq

/-- Request payload of manage_offer. -/
structure ManageOfferRequest where
  action : OfferAction
  offer : Option Money
deriving DecidableEq

/-- Response envelope of manage_offer. -/
structure ManageOfferResponse where
  success : Bool
  error_message : Option String
deriving DecidableEq

/-- Response envelope of sign_contract. -/
structure SignContractResponse where
  success : Bool
  error_message : Option String
deriving DecidableEq

/-- Events emitted by the contract. -/
inductive Event
  | ContractCreated (owner : Nat)
  | ContractPausedEvent (who : Nat)
  | ContractUnpausedEvent (who : Nat)
  | ManageOfferRequestSubmitted (submitter : Nat) (request_id : Nat)
  | SignContractRequestSubmitted (submitter : Nat) (request_id : Nat)
  | ManageOfferResponseGenerated (request_id : Nat) (success : Bool)
  | SignContractResponseGenerated (request_id : Nat) (success : Bool)
  | AuthorizationAttempt (caller : Nat) (stored_address : Nat) (match_result : Bool)
  | FunctionCalled (caller : Nat) (function_name : String) (request_id : Nat) (timestamp : Nat)
  | ContractDataChanged (field_name : String) (changed_by : Nat)
      (old_value : String) (new_value : String) (block_number : Nat) (timestamp : Nat)
deriving DecidableEq

/-- Block execution context: caller identity, block timestamp and block number. -/
structure Env where
  caller : Nat
  block_timestamp : Nat
  block_number : Nat
deriving DecidableEq

/-- Contract storage; the audit log Mapping is a partial map from index to entry. -/
structure PropertySale where
  owner : Nat
  paused : Bool
  audit_log : Nat → Option AuditLogEntry
  audit_log_count : Nat
  pending_field_changes : List FieldChange
  sellers : List Party
  buyers : List Party
  property_address : PropertyAddress
  purchase_price : Option Money
  deposit : Option Money
  balance : Option Money
  offer : Option Offer
  agreement_date : Option Nat
  status : ContractStatus

/-- Debug rendering of a currency code. -/
def fmtCurrencyCode : CurrencyCode → String
  | CurrencyCode.EUR => "EUR"
  | CurrencyCode.GBP => "GBP"
  | CurrencyCode.USD => "USD"

/-- Debug rendering of a country. -/
def fmtCountry : Country → String
  | Country.UK => "UK"
  | Country.USA => "USA"
  | Country.AUSTRALIA => "AUSTRALIA"
  | Country.FRANCE => "FRANCE"
  | Country.GERMANY => "GERMANY"
  | Country.ITALY => "ITALY"

/-- Debug rendering of an offer status. -/
def fmtOfferStatus : OfferStatus → String
  | OfferStatus.Pending => "Pending"
  | OfferStatus.Accepted => "Accepted"
  | OfferStatus.Rejected => "Rejected"
  | OfferStatus.Cancelled => "Cancelled"

/-- Debug rendering of a contract status. -/
def fmtContractStatus : ContractStatus → String
  | ContractStatus.Draft => "Draft"
  | ContractStatus.UnderOffer => "UnderOffer"
  | ContractStatus.Signing => "Signing"
  | ContractStatus.Signed => "Signed"
  | ContractStatus.Superseded => "Superseded"
  | ContractStatus.Cancelled => "Cancelled"
  | ContractStatus.Paused => "Paused"

/-- Debug rendering of a Money value. -/
def fmtMoney (m : Money) : String :=
  "Money \x7b amount: " ++ toString m.amount ++ ", currency_code: "
    ++ fmtCurrencyCode m.currency_code ++ " \x7d"

/-- Debug rendering of an Offer value. -/
def fmtOffer (o : Offer) : String :=
  "Offer \x7b offer: " ++ fmtMoney o.offer ++ ", offer_status: "
    ++ fmtOfferStatus o.offer_status ++ ", offer_date: " ++ toString o.offer_date ++ " \x7d"

/-- Debug rendering of an optional Offer. -/
def fmtOptionOffer : Option Offer → String
  | none => "None"
  | some o => "Some(" ++ fmtOffer o ++ ")"

/-- Debug rendering of an account identifier. -/
def fmtAccount (a : Nat) : String := "AccountId(" ++ toString a ++ ")"

/-- Debug rendering of an optional timestamp. -/
def fmtOptionNat : Option Nat → String
  | none => "None"
  | some t => "Some(" ++ toString t ++ ")"

/-- Debug rendering of a property address. -/
def fmtPropertyAddress (a : PropertyAddress) : String :=
  "PropertyAddress \x7b address_line1: \"" ++ a.address_line1
    ++ "\", address_line2: \"" ++ a.address_line2
    ++ "\", city: \"" ++ a.city
    ++ "\", post_code: \"" ++ a.post_code
    ++ "\", county: \"" ++ a.county
    ++ "\", country: " ++ fmtCountry a.country ++ " \x7d"

/-- Debug rendering of a party. -/
def fmtParty (p : Party) : String :=
  "Party \x7b party_id: \"" ++ p.party_id
    ++ "\", full_name: \"" ++ p.full_name
    ++ "\", email: \"" ++ p.email
    ++ "\", mobile: \"" ++ p.mobile
    ++ "\", address: " ++ fmtPropertyAddress p.address
    ++ ", wallet_address: " ++ fmtAccount p.wallet_address
    ++ ", signed_at: " ++ fmtOptionNat p.signed_at ++ " \x7d"

/-- Debug rendering of a list of parties. -/
def fmtParties (l : List Party) : String :=
  "[" ++ String.intercalate ", " (l.map fmtParty) ++ "]"

/-- Money rendered as amount then currency, as used by the price and deposit setters. -/
def fmtMoneyShort (m : Money) : String :=
  toString m.amount ++ " " ++ fmtCurrencyCode m.currency_code

/-- Optional Money rendered in the short form used by the setters. -/
def fmtOptionMoneyShort : Option Money → String
  | none => "None"
  | some m => fmtMoneyShort m

/-- Validate that a Party has the required non-empty fields. -/
def is_valid_party (party : Party) : Bool :=
  !party.party_id.isEmpty && !party.full_name.isEmpty && !party.email.isEmpty

/-- Validate that a PropertyAddress has the required non-empty fields. -/
def is_valid_property_address (address : PropertyAddress) : Bool :=
  !address.address_line1.isEmpty && !address.city.isEmpty
    && !address.post_code.isEmpty && !address.county.isEmpty

/-- Create the valid default PropertyAddress placeholder. -/
def default_property_address : PropertyAddress :=
  { address_line1 := "TBD", address_line2 := "TBD", city := "TBD",
    post_code := "TBD", county := "TBD", country := Country.UK }

/-- Filter out invalid or blank parties. -/
def filter_valid_parties (parties : List Party) : List Party :=
  parties.filter (fun party => is_valid_party party)

/-- Insert an entry in the audit log map at the given key. -/
def mapInsert (m : Nat → Option AuditLogEntry) (k : Nat) (v : AuditLogEntry) :
    Nat → Option AuditLogEntry :=
  fun i => if i = k then some v else m i

/-- Record a function call in the audit log, taking ownership of all pending field changes. -/
def log_function_call (env : Env) (s : PropertySale) (function_name : String)
    (request_id : Nat) : PropertySale × List Event :=
  let field_changes := s.pending_field_changes
  let log_entry := AuditLogEntry.FunctionCall env.caller env.block_timestamp
    function_name request_id field_changes
  let s' := { s with pending_field_changes := [],
                     audit_log := mapInsert s.audit_log s.audit_log_count log_entry,
                     audit_log_count := satAdd s.audit_log_count 1 }
  (s', Event.FunctionCalled env.caller function_name request_id env.block_timestamp ::
    field_changes.map (fun fc => Event.ContractDataChanged fc.field_name env.caller
      fc.old_value fc.new_value env.block_number env.block_timestamp))

/-- Record a field change into the pending buffer for inclusion in the next function call log. -/
def log_field_change (s : PropertySale) (field_name old_value new_value : String) :
    PropertySale :=
  let field_change : FieldChange :=
    { field_name := field_name, old_value := old_value, new_value := new_value }
  { s with pending_field_changes := s.pending_field_changes ++ [field_change] }

/-- Record a direct field change immediately, bypassing the pending buffer. -/
def log_direct_field_change (env : Env) (s : PropertySale)
    (field_name old_value new_value : String) : PropertySale × List Event :=
  let log_entry := AuditLogEntry.DirectFieldChange field_name env.caller
    old_value new_value env.block_number env.block_timestamp
  let s' := { s with audit_log := mapInsert s.audit_log s.audit_log_count log_entry,
                     audit_log_count := satAdd s.audit_log_count 1 }
  (s', [Event.ContractDataChanged field_name env.caller old_value new_value
    env.block_number env.block_timestamp])

/-- Compare the caller account with a stored account, emitting the debug event. -/
def is_caller_matching_account (caller stored_address : Nat) : Bool × List Event :=
  let match_result := caller == stored_address
  (match_result, [Event.AuthorizationAttempt caller stored_address match_result])

/-- Scan a party list for the caller, stopping at the first match, as the buyer/seller loops do. -/
def caller_in_parties (caller : Nat) : List Party → Bool × List Event
  | [] => (false, [])
  | p :: rest =>
    let r := is_caller_matching_account caller p.wallet_address
    if r.1 then (true, r.2)
    else
      let r' := caller_in_parties caller rest
      (r'.1, r.2 ++ r'.2)

/-- Check if the caller is a registered buyer. -/
def is_caller_buyer (s : PropertySale) (caller : Nat) : Bool × List Event :=
  caller_in_parties caller s.buyers

/-- Check if the caller is a registered seller. -/
def is_caller_seller (s : PropertySale) (caller : Nat) : Bool × List Event :=
  caller_in_parties caller s.sellers

/-- Validate that the contract is ready for signing; the first failing check wins. -/
def validate_contract_ready_for_signing (s : PropertySale) : Except String Unit :=
  if s.sellers.isEmpty then
    Except.error "Contract must have at least one seller before signing"
  else if s.buyers.isEmpty then
    Except.error "Contract must have at least one buyer before signing"
  else
    match s.offer with
    | some offer =>
      if offer.offer_status ≠ OfferStatus.Accepted then
        Except.error ("Offer must be accepted before signing. Current status: "
          ++ fmtOfferStatus offer.offer_status)
      else
        match s.purchase_price with
        | some purchase_price =>
          if purchase_price.amount ≠ offer.offer.amount then
            Except.error ("Purchase price (" ++ fmtMoneyShort purchase_price
              ++ ") must equal offer amount (" ++ fmtMoneyShort offer.offer ++ ")")
          else if purchase_price.currency_code ≠ offer.offer.currency_code then
            Except.error ("Purchase price currency ("
              ++ fmtCurrencyCode purchase_price.currency_code
              ++ ") must match offer currency ("
              ++ fmtCurrencyCode offer.offer.currency_code ++ ")")
          else Except.ok ()
        | none => Except.error "Purchase price must be set before signing"
    | none => Except.error "No offer exists to sign - an accepted offer is required"

/-- Find the first party matching the caller and set its signed_at; error if it already signed. -/
def sign_first_match (caller ts : Nat) :
    List Party → Except ContractError (Option (List Party)) × List Event
  | [] => (Except.ok none, [])
  | p :: rest =>
    let r := is_caller_matching_account caller p.wallet_address
    if r.1 then
      if p.signed_at.isSome then (Except.error ContractError.InvalidInput, r.2)
      else (Except.ok (some ({ p with signed_at := some ts } :: rest)), r.2)
    else
      let r' := sign_first_match caller ts rest
      (match r'.1 with
       | Except.error e => Except.error e
       | Except.ok none => Except.ok none
       | Except.ok (some rest') => Except.ok (some (p :: rest')), r.2 ++ r'.2)

/-- Find and update the signing party: sellers are scanned first, then buyers. -/
def find_and_sign_party (env : Env) (s : PropertySale) :
    Except ContractError PropertySale × List Event :=
  let current_timestamp := env.block_timestamp
  let rs := sign_first_match env.caller current_timestamp s.sellers
  match rs.1 with
  | Except.error e => (Except.error e, rs.2)
  | Except.ok (some sellers') => (Except.ok { s with sellers := sellers' }, rs.2)
  | Except.ok none =>
    let rb := sign_first_match env.caller current_timestamp s.buyers
    match rb.1 with
    | Except.error e => (Except.error e, rs.2 ++ rb.2)
    | Except.ok (some buyers') => (Except.ok { s with buyers := buyers' }, rs.2 ++ rb.2)
    | Except.ok none => (Except.error ContractError.Unauthorized, rs.2 ++ rb.2)

/-- Check whether all sellers and all buyers have signed. -/
def all_parties_signed (s : PropertySale) : Bool :=
  s.sellers.all (fun seller => seller.signed_at.isSome)
    && s.buyers.all (fun buyer => buyer.signed_at.isSome)

/-- Check whether no seller and no buyer has signed yet. -/
def is_first_signature (s : PropertySale) : Bool :=
  s.sellers.all (fun seller => seller.signed_at.isNone)
    && s.buyers.all (fun buyer => buyer.signed_at.isNone)

/-- Constructor: sanitize parties and the property address, then build the initial storage. -/
def PropertySale.new (env : Env) (sellers buyers : List Party)
    (property_address : PropertyAddress) (purchase_price deposit balance : Option Money)
    (offer : Option Offer) (agreement_date : Option Nat) (status : ContractStatus) :
    PropertySale × List Event :=
  let caller := env.caller
  let valid_sellers := filter_valid_parties sellers
  let valid_buyers := filter_valid_parties buyers
  let valid_property_address :=
    if is_valid_property_address property_address then property_address
    else default_property_address
  ({ owner := caller, paused := false, audit_log := fun _ => none, audit_log_count := 0,
     pending_field_changes := [], sellers := valid_sellers, buyers := valid_buyers,
     property_address := valid_property_address, purchase_price := purchase_price,
     deposit := deposit, balance := balance, offer := offer,
     agreement_date := agreement_date, status := status },
   [Event.ContractCreated caller])

/-- Pause the contract (owner only; exempt from the paused gate). -/
def pause (env : Env) (s : PropertySale) :
    Except ContractError Unit × PropertySale × List Event :=
  if env.caller ≠ s.owner then (Except.error ContractError.Unauthorized, s, [])
  else (Except.ok (), { s with paused := true }, [Event.ContractPausedEvent env.caller])

/-- Unpause the contract (owner only; exempt from the paused gate). -/
def unpause (env : Env) (s : PropertySale) :
    Except ContractError Unit × PropertySale × List Event :=
  if env.caller ≠ s.owner then (Except.error ContractError.Unauthorized, s, [])
  else (Except.ok (), { s with paused := false }, [Event.ContractUnpausedEvent env.caller])

/-- Custom logic of manage_offer for the Submit action. -/
def manage_offer_submit (env : Env) (s : PropertySale) (offer_opt : Option Money) :
    ManageOfferResponse × PropertySale × List Event :=
  match offer_opt with
  | some offer_money =>
    let new_offer : Offer := { offer := offer_money, offer_status := OfferStatus.Pending,
                               offer_date := env.block_timestamp }
    let old_offer_value := fmtOptionOffer s.offer
    let new_offer_value_str := "Some(" ++ fmtOffer new_offer ++ ")"
    let r1 := log_direct_field_change env s "offer" old_offer_value new_offer_value_str
    let s1 := { r1.1 with offer := some new_offer }
    let old_status_value := fmtContractStatus s1.status
    let s2 := { s1 with status := ContractStatus.UnderOffer }
    let new_status_value := fmtContractStatus s2.status
    let r2 := log_direct_field_change env s2 "status" old_status_value new_status_value
    ({ success := true, error_message := none }, r2.1, r1.2 ++ r2.2)
  | none =>
    ({ success := false,
       error_message := some "Offer amount is required for Submit action" }, s, [])

/-- Custom logic of manage_offer for the Accept, Reject and Cancel actions. -/
def manage_offer_update (env : Env) (s : PropertySale) (action : OfferAction) :
    ManageOfferResponse × PropertySale × List Event :=
  match s.offer with
  | some existing_offer =>
    let old_offer_value := fmtOptionOffer s.offer
    let new_offer_status : OfferStatus :=
      match action with
      | OfferAction.Accept => OfferStatus.Accepted
      | OfferAction.Reject => OfferStatus.Rejected
      | OfferAction.Cancel => OfferStatus.Cancelled
      | OfferAction.Submit => OfferStatus.Pending
    let s1 := { s with offer := some { existing_offer with offer_status := new_offer_status } }
    let new_offer_value_str := fmtOptionOffer s1.offer
    let r1 := log_direct_field_change env s1 "offer" old_offer_value new_offer_value_str
    match action with
    | OfferAction.Cancel =>
      let old_status_value := fmtContractStatus r1.1.status
      let s2 := { r1.1 with status := ContractStatus.Draft }
      let new_status_value := fmtContractStatus s2.status
      let r2 := log_direct_field_change env s2 "status" old_status_value new_status_value
      ({ success := true, error_message := none }, r2.1, r1.2 ++ r2.2)
    | _ => ({ success := true, error_message := none }, r1.1, r1.2)
  | none =>
    ({ success := false, error_message := some "No existing offer to update" }, s, [])

/-- Shared tail of manage_offer: log the function call and emit the response event. -/
def manage_offer_finish (env : Env) (request_id : Nat) (evs : List Event)
    (body : ManageOfferResponse × PropertySale × List Event) :
    Except ContractError ManageOfferResponse × PropertySale × List Event :=
  let rf := log_function_call env body.2.1 "manage_offer" request_id
  (Except.ok body.1, rf.1,
    evs ++ body.2.2 ++ rf.2 ++ [Event.ManageOfferResponseGenerated request_id true])

/-- The manage_offer message: paused gate, request event, role authorization, custom logic. -/
def manage_offer (env : Env) (s : PropertySale) (request : ManageOfferRequest) :
    Except ContractError ManageOfferResponse × PropertySale × List Event :=
  if s.paused then (Except.error ContractError.ContractPaused, s, [])
  else
    let caller := env.caller
    let request_id := env.block_number
    let ev0 : List Event := [Event.ManageOfferRequestSubmitted caller request_id]
    match request.action with
    | OfferAction.Submit =>
      let r := is_caller_buyer s caller
      if r.1 then manage_offer_finish env request_id (ev0 ++ r.2)
        (manage_offer_submit env s request.offer)
      else (Except.ok ⟨false, some "Only buyers can submit or cancel offers"⟩, s, ev0 ++ r.2)
    | OfferAction.Cancel =>
      let r := is_caller_buyer s caller
      if r.1 then manage_offer_finish env request_id (ev0 ++ r.2)
        (manage_offer_update env s OfferAction.Cancel)
      else (Except.ok ⟨false, some "Only buyers can submit or cancel offers"⟩, s, ev0 ++ r.2)
    | OfferAction.Accept =>
      let r := is_caller_seller s caller
      if r.1 then manage_offer_finish env request_id (ev0 ++ r.2)
        (manage_offer_update env s OfferAction.Accept)
      else (Except.ok ⟨false, some "Only sellers can accept or reject offers"⟩, s, ev0 ++ r.2)
    | OfferAction.Reject =>
      let r := is_caller_seller s caller
      if r.1 then manage_offer_finish env request_id (ev0 ++ r.2)
        (manage_offer_update env s OfferAction.Reject)
      else (Except.ok ⟨false, some "Only sellers can accept or reject offers"⟩, s, ev0 ++ r.2)

/-- The sign_contract message: paused gate, validation pass, signing, status transitions. -/
def sign_contract (env : Env) (s : PropertySale) :
    Except ContractError SignContractResponse × PropertySale × List Event :=
  if s.paused then (Except.error ContractError.ContractPaused, s, [])
  else
    let request_id := env.block_number
    let ev0 : List Event := [Event.SignContractRequestSubmitted env.caller request_id]
    match validate_contract_ready_for_signing s with
    | Except.error error_msg =>
      (Except.ok { success := false, error_message := some error_msg }, s, ev0)
    | Except.ok _ =>
      let is_first := is_first_signature s
      let fr := find_and_sign_party env s
      match fr.1 with
      | Except.ok s1 =>
        let sellers_value := fmtParties s1.sellers
        let r1 := log_direct_field_change env s1 "sellers" "sellers_updated" sellers_value
        let buyers_value := fmtParties r1.1.buyers
        let r2 := log_direct_field_change env r1.1 "buyers" "buyers_updated" buyers_value
        let step3 : PropertySale × List Event :=
          if is_first then
            let old_status_value := fmtContractStatus r2.1.status
            let s3 := { r2.1 with status := ContractStatus.Signing }
            let new_status_value := fmtContractStatus s3.status
            let r3 := log_direct_field_change env s3 "status" old_status_value new_status_value
            (r3.1, r3.2)
          else if all_parties_signed r2.1 then
            let old_status_value := fmtContractStatus r2.1.status
            let s3 := { r2.1 with status := ContractStatus.Signed }
            let new_status_value := fmtContractStatus s3.status
            let r3 := log_direct_field_change env s3 "status" old_status_value new_status_value
            (r3.1, r3.2)
          else (r2.1, [])
        let rf := log_function_call env step3.1 "sign_contract" request_id
        (Except.ok { success := true, error_message := none }, rf.1,
          ev0 ++ fr.2 ++ r1.2 ++ r2.2 ++ step3.2 ++ rf.2
            ++ [Event.SignContractResponseGenerated request_id true])
      | Except.error contract_error =>
        let error_msg :=
          match contract_error with
          | ContractError.Unauthorized => "Only buyers and sellers can sign the contract"
          | ContractError.InvalidInput => "Party has already signed or invalid signing attempt"
          | _ => "Signing failed"
        let rf := log_function_call env s "sign_contract" request_id
        (Except.ok { success := false, error_message := some error_msg }, rf.1,
          ev0 ++ fr.2 ++ rf.2
            ++ [Event.SignContractResponseGenerated request_id false])

/-- Add a seller: paused gate, owner check, validity check, duplicate id check, append, log. -/
def add_seller (env : Env) (s : PropertySale) (party : Party) :
    Except ContractError Unit × PropertySale × List Event :=
  if s.paused then (Except.error ContractError.ContractPaused, s, [])
  else if env.caller ≠ s.owner then (Except.error ContractError.Unauthorized, s, [])
  else if !is_valid_party party then (Except.error ContractError.InvalidInput, s, [])
  else if s.sellers.any (fun p => p.party_id == party.party_id) then
    (Except.error ContractError.InvalidInput, s, [])
  else
    let old_value := fmtParties s.sellers
    let s1 := { s with sellers := s.sellers ++ [party] }
    let new_value := fmtParties s1.sellers
    let r := log_direct_field_change env s1 "sellers" old_value new_value
    (Except.ok (), r.1, r.2)

/-- Remove a seller by party id; retains non-matching parties, then checks the length. -/
def remove_seller (env : Env) (s : PropertySale) (party_id : String) :
    Except ContractError Unit × PropertySale × List Event :=
  if s.paused then (Except.error ContractError.ContractPaused, s, [])
  else if env.caller ≠ s.owner then (Except.error ContractError.Unauthorized, s, [])
  else
    let old_value := fmtParties s.sellers
    let s1 := { s with sellers := s.sellers.filter (fun p => !(p.party_id == party_id)) }
    if s1.sellers.length = s.sellers.length then
      (Except.error ContractError.InvalidInput, s1, [])
    else
      let new_value := fmtParties s1.sellers
      let r := log_direct_field_change env s1 "sellers" old_value new_value
      (Except.ok (), r.1, r.2)

/-- Add a buyer: paused gate, owner check, validity check, duplicate id check, append, log. -/
def add_buyer (env : Env) (s : PropertySale) (party : Party) :
    Except ContractError Unit × PropertySale × List Event :=
  if s.paused then (Except.error ContractError.ContractPaused, s, [])
  else if env.caller ≠ s.owner then (Except.error ContractError.Unauthorized, s, [])
  else if !is_valid_party party then (Except.error ContractError.InvalidInput, s, [])
  else if s.buyers.any (fun p => p.party_id == party.party_id) then
    (Except.error ContractError.InvalidInput, s, [])
  else
    let old_value := fmtParties s.buyers
    let s1 := { s with buyers := s.buyers ++ [party] }
    let new_value := fmtParties s1.buyers
    let r := log_direct_field_change env s1 "buyers" old_value new_value
    (Except.ok (), r.1, r.2)

/-- Remove a buyer by party id; retains non-matching parties, then checks the length. -/
def remove_buyer (env : Env) (s : PropertySale) (party_id : String) :
    Except ContractError Unit × PropertySale × List Event :=
  if s.paused then (Except.error ContractError.ContractPaused, s, [])
  else if env.caller ≠ s.owner then (Except.error ContractError.Unauthorized, s, [])
  else
    let old_value := fmtParties s.buyers
    let s1 := { s with buyers := s.buyers.filter (fun p => !(p.party_id == party_id)) }
    if s1.buyers.length = s.buyers.length then
      (Except.error ContractError.InvalidInput, s1, [])
    else
      let new_value := fmtParties s1.buyers
      let r := log_direct_field_change env s1 "buyers" old_value new_value
      (Except.ok (), r.1, r.2)

/-- Setter for the property address. -/
def set_property_address (env : Env) (s : PropertySale) (new_value : PropertyAddress) :
    Except ContractError Unit × PropertySale × List Event :=
  if s.paused then (Except.error ContractError.ContractPaused, s, [])
  else if env.caller ≠ s.owner then (Except.error ContractError.Unauthorized, s, [])
  else if !is_valid_property_address new_value then
    (Except.error ContractError.InvalidInput, s, [])
  else
    let old_value := fmtPropertyAddress s.property_address
    let new_value_str := fmtPropertyAddress new_value
    let r := log_direct_field_change env s "property_address" old_value new_value_str
    (Except.ok (), { r.1 with property_address := new_value }, r.2)

/-- Setter for the purchase price. -/
def set_purchase_price (env : Env) (s : PropertySale) (new_value : Option Money) :
    Except ContractError Unit × PropertySale × List Event :=
  if s.paused then (Except.error ContractError.ContractPaused, s, [])
  else if env.caller ≠ s.owner then (Except.error ContractError.Unauthorized, s, [])
  else
    let old_value := fmtOptionMoneyShort s.purchase_price
    let new_value_str := fmtOptionMoneyShort new_value
    let r := log_direct_field_change env s "purchase_price" old_value new_value_str
    (Except.ok (), { r.1 with purchase_price := new_value }, r.2)

/-- Setter for the deposit. -/
def set_deposit (env : Env) (s : PropertySale) (new_value : Option Money) :
    Except ContractError Unit × PropertySale × List Event :=
  if s.paused then (Except.error ContractError.ContractPaused, s, [])
  else if env.caller ≠ s.owner then (Except.error ContractError.Unauthorized, s, [])
  else
    let old_value := fmtOptionMoneyShort s.deposit
    let new_value_str := fmtOptionMoneyShort new_value
    let r := log_direct_field_change env s "deposit" old_value new_value_str
    (Except.ok (), { r.1 with deposit := new_value }, r.2)

/-- Setter for the balance. -/
def set_balance (env : Env) (s : PropertySale) (new_value : Option Money) :
    Except ContractError Unit × PropertySale × List Event :=
  if s.paused then (Except.error ContractError.ContractPaused, s, [])
  else if env.caller ≠ s.owner then (Except.error ContractError.Unauthorized, s, [])
  else
    let old_value := fmtOptionMoneyShort s.balance
    let new_value_str := fmtOptionMoneyShort new_value
    let r := log_direct_field_change env s "balance" old_value new_value_str
    (Except.ok (), { r.1 with balance := new_value }, r.2)

/-- Setter for the offer. -/
def set_offer (env : Env) (s : PropertySale) (new_value : Option Offer) :
    Except ContractError Unit × PropertySale × List Event :=
  if s.paused then (Except.error ContractError.ContractPaused, s, [])
  else if env.caller ≠ s.owner then (Except.error ContractError.Unauthorized, s, [])
  else
    let old_value := fmtOptionOffer s.offer
    let new_value_str := fmtOptionOffer new_value
    let r := log_direct_field_change env s "offer" old_value new_value_str
    (Except.ok (), { r.1 with offer := new_value }, r.2)

/-- Setter for the agreement date. -/
def set_agreement_date (env : Env) (s : PropertySale) (new_value : Option Nat) :
    Except ContractError Unit × PropertySale × List Event :=
  if s.paused then (Except.error ContractError.ContractPaused, s, [])
  else if env.caller ≠ s.owner then (Except.error ContractError.Unauthorized, s, [])
  else
    let old_value :=
      match s.agreement_date with
      | some old_date => toString old_date
      | none => "None"
    let new_value_str :=
      match new_value with
      | some new_date => toString new_date
      | none => "None"
    let r := log_direct_field_change env s "agreement_date" old_value new_value_str
    (Except.ok (), { r.1 with agreement_date := new_value }, r.2)

/-- Setter for the contract status. -/
def set_status (env : Env) (s : PropertySale) (new_value : ContractStatus) :
    Except ContractError Unit × PropertySale × List Event :=
  if s.paused then (Except.error ContractError.ContractPaused, s, [])
  else if env.caller ≠ s.owner then (Except.error ContractError.Unauthorized, s, [])
  else
    let old_value := fmtContractStatus s.status
    let new_value_str := fmtContractStatus new_value
    let r := log_direct_field_change env s "status" old_value new_value_str
    (Except.ok (), { r.1 with status := new_value }, r.2)

/-- Paginated audit-log query: indices from start to the clamped exclusive end. -/
def get_audit_log (s : PropertySale) (start limit : Nat) : List AuditLogEntry :=
  let endIdx := min (satAdd start limit) s.audit_log_count
  (List.range' start (endIdx - start)).filterMap s.audit_log

/-- Does an entry touch the given field, directly or through an embedded change? -/
def entry_matches_field_name (field_name : String) : AuditLogEntry → Bool
  | AuditLogEntry.DirectFieldChange entry_field_name _ _ _ _ _ =>
    entry_field_name == field_name
  | AuditLogEntry.FunctionCall _ _ _ _ field_changes =>
    field_changes.any (fun fc => fc.field_name == field_name)

/-- Full-scan audit-log query by field name; each matching entry is included once. -/
def get_audit_log_field_changes_by_field (s : PropertySale) (field_name : String) :
    List AuditLogEntry :=
  (List.range s.audit_log_count).filterMap (fun i =>
    match s.audit_log i with
    | some entry =>
      if entry_matches_field_name field_name entry then some entry else none
    | none => none)

/-- One mutating public call with its block context, for reasoning about call sequences. -/
inductive Op
  | pauseOp (env : Env)
  | unpauseOp (env : Env)
  | manageOfferOp (env : Env) (request : ManageOfferRequest)
  | signContractOp (env : Env)
  | addSellerOp (env : Env) (party : Party)
  | removeSellerOp (env : Env) (party_id : String)
  | addBuyerOp (env : Env) (party : Party)
  | removeBuyerOp (env : Env) (party_id : String)
  | setPropertyAddressOp (env : Env) (v : PropertyAddress)
  | setPurchasePriceOp (env : Env) (v : Option Money)
  | setDepositOp (env : Env) (v : Option Money)
  | setBalanceOp (env : Env) (v : Option Money)
  | setOfferOp (env : Env) (v : Option Offer)
  | setAgreementDateOp (env : Env) (v : Option Nat)
  | setStatusOp (env : Env) (v : ContractStatus)

/-- Resulting storage of one mutating public call. -/
def applyOp (s : PropertySale) : Op → PropertySale
  | Op.pauseOp env => (pause env s).2.1
  | Op.unpauseOp env => (unpause env s).2.1
  | Op.manageOfferOp env request => (manage_offer env s request).2.1
  | Op.signContractOp env => (sign_contract env s).2.1
  | Op.addSellerOp env party => (add_seller env s party).2.1
  | Op.removeSellerOp env pid => (remove_seller env s pid).2.1
  | Op.addBuyerOp env party => (add_buyer env s party).2.1
  | Op.removeBuyerOp env pid => (remove_buyer env s pid).2.1
  | Op.setPropertyAddressOp env v => (set_property_address env s v).2.1
  | Op.setPurchasePriceOp env v => (set_purchase_price env s v).2.1
  | Op.setDepositOp env v => (set_deposit env s v).2.1
  | Op.setBalanceOp env v => (set_balance env s v).2.1
  | Op.setOfferOp env v => (set_offer env s v).2.1
  | Op.setAgreementDateOp env v => (set_agreement_date env s v).2.1
  | Op.setStatusOp env v => (set_status env s v).2.1

/-- Run a sequence of mutating public calls. -/
def runOps (s : PropertySale) (ops : List Op) : PropertySale :=
  ops.foldl applyOp s

/-- One log-producing call: a function-call log or a direct field-change log. -/
inductive LogCall
  | fnCall (env : Env) (function_name : String) (request_id : Nat)
  | directChange (env : Env) (field_name old_value new_value : String)

/-- Apply one log-producing call to the storage. -/
def applyLogCall (s : PropertySale) : LogCall → PropertySale
  | LogCall.fnCall env f r => (log_function_call env s f r).1
  | LogCall.directChange env f o n => (log_direct_field_change env s f o n).1

/-- Run a sequence of log-producing calls. -/
def runLogCalls (s : PropertySale) (cs : List LogCall) : PropertySale :=
  cs.foldl applyLogCall s

/-- Error message attached by sign_contract to a find_and_sign_party failure. -/
def sign_error_message : ContractError → String
  | ContractError.Unauthorized => "Only buyers and sellers can sign the contract"
  | ContractError.InvalidInput => "Party has already signed or invalid signing attempt"
  | _ => "Signing failed"

/-- Invariant: the pending buffer is empty and every FunctionCall entry embeds no changes. -/
def audit_batch_inv (s : PropertySale) : Prop :=
  s.pending_field_changes = [] ∧
  ∀ i c t f r cs, s.audit_log i = some (AuditLogEntry.FunctionCall c t f r cs) → cs = []

/-- The party ids of both registries are duplicate free. -/
def party_ids_unique (s : PropertySale) : Prop :=
  (s.sellers.map Party.party_id).Nodup ∧ (s.buyers.map Party.party_id).Nodup

/-- The first party matching the caller (sellers scanned before buyers) has already signed. -/
def first_match_already_signed (caller : Nat) (s : PropertySale) : Bool :=
  match s.sellers.find? (fun p => p.wallet_address == caller) with
  | some p => p.signed_at.isSome
  | none =>
    match s.buyers.find? (fun p => p.wallet_address == caller) with
    | some p => p.signed_at.isSome
    | none => false

/-- Deployment context used by the concrete example states. -/
def envOwner : Env := ⟨1, 50, 6⟩

/-- Block context of the example buyer calls. -/
def envBuyer : Env := ⟨2, 99, 7⟩

/-- Block context of the example seller calls. -/
def envSeller : Env := ⟨3, 120, 8⟩

/-- Example property address. -/
def exAddress : PropertyAddress := default_property_address

/-- Example seller party with wallet 3. -/
def exSellerParty : Party :=
  ⟨"s1", "Seller One", "seller@example.com", "0400", exAddress, 3, none⟩

/-- Example buyer party with wallet 2. -/
def exBuyerParty : Party :=
  ⟨"b1", "Buyer One", "buyer@example.com", "0401", exAddress, 2, none⟩

/-- Example offer amount of 100 GBP. -/
def exMoney : Money := ⟨100, CurrencyCode.GBP⟩

/-- Example freshly constructed contract with one seller and one buyer and no offer. -/
def exState0 : PropertySale :=
  (PropertySale.new envOwner [exSellerParty] [exBuyerParty] exAddress
    none none none none none ContractStatus.Draft).1

/-- Example accepted offer of 100 GBP. -/
def exAcceptedOffer : Offer := ⟨exMoney, OfferStatus.Accepted, 40⟩

/-- Example contract that passes every signing precondition. -/
def exSignReady : PropertySale :=
  (PropertySale.new envOwner [exSellerParty] [exBuyerParty] exAddress
    (some exMoney) none none (some exAcceptedOffer) none ContractStatus.UnderOffer).1

/-- Example contract whose purchase price does not match the accepted offer. -/
def exMismatchState : PropertySale :=
  { exSignReady with purchase_price := some ⟨90, CurrencyCode.GBP⟩ }

/-- Example paused contract. -/
def exPausedState : PropertySale := { exState0 with paused := true }

/-- Block context of the audit-log saturation scenario. -/
def c6Env : Env := ⟨9, 11, 13⟩

/-- First log-producing call of the saturation scenario. -/
def c6Call1 : LogCall := LogCall.directChange c6Env "a" "o" "n"

/-- Second, different log-producing call of the saturation scenario. -/
def c6Call2 : LogCall := LogCall.directChange c6Env "b" "o" "n"

/-- Entry written by the first saturation-scenario call. -/
def c6Entry1 : AuditLogEntry := AuditLogEntry.DirectFieldChange "a" 9 "o" "n" 13 11

/-- Entry written by the second saturation-scenario call. -/
def c6Entry2 : AuditLogEntry := AuditLogEntry.DirectFieldChange "b" 9 "o" "n" 13 11

/-- Freshly constructed contract of the saturation scenario. -/
def c6S0 : PropertySale :=
  (PropertySale.new c6Env [] [] default_property_address
    none none none none none ContractStatus.Draft).1

-- ===== THEOREMS =====

/-- C5: for every mutating operation other than pause and unpause (manage_offer,
sign_contract, add/remove seller/buyer and every setter), if the contract is paused the
call returns the ContractPaused error before any other check, leaving the whole storage
(including audit_log_count) unchanged and emitting no event. -/
theorem C5_paused_rejects_all_mutations (env : Env) (s : PropertySale)
    (request : ManageOfferRequest) (party : Party) (pid : String)
    (addr : PropertyAddress) (m : Option Money) (o : Option Offer)
    (d : Option Nat) (st : ContractStatus)
    (h : s.paused = true) :
    manage_offer env s request = (Except.error ContractError.ContractPaused, s, []) ∧
    sign_contract env s = (Except.error ContractError.ContractPaused, s, []) ∧
    add_seller env s party = (Except.error ContractError.ContractPaused, s, []) ∧
    remove_seller env s pid = (Except.error ContractError.ContractPaused, s, []) ∧
    add_buyer env s party = (Except.error ContractError.ContractPaused, s, []) ∧
    remove_buyer env s pid = (Except.error ContractError.ContractPaused, s, []) ∧
    set_property_address env s addr = (Except.error ContractError.ContractPaused, s, []) ∧
    set_purchase_price env s m = (Except.error ContractError.ContractPaused, s, []) ∧
    set_deposit env s m = (Except.error ContractError.ContractPaused, s, []) ∧
    set_balance env s m = (Except.error ContractError.ContractPaused, s, []) ∧
    set_offer env s o = (Except.error ContractError.ContractPaused, s, []) ∧
    set_agreement_date env s d = (Except.error ContractError.ContractPaused, s, []) ∧
    set_status env s st = (Except.error ContractError.ContractPaused, s, []) := by
  refine ⟨?_, ?_, ?_, ?_, ?_, ?_, ?_, ?_, ?_, ?_, ?_, ?_, ?_⟩ <;>
    simp [manage_offer, sign_contract, add_seller, remove_seller, add_buyer, remove_buyer,
      set_property_address, set_purchase_price, set_deposit, set_balance, set_offer,
      set_agreement_date, set_status, h]

/-- C5 witness: a concrete paused contract rejects a concrete manage_offer call. -/
theorem C5_paused_rejects_all_mutations_witness :
    manage_offer envBuyer exPausedState ⟨OfferAction.Submit, some exMoney⟩
      = (Except.error ContractError.ContractPaused, exPausedState, []) :=
  (C5_paused_rejects_all_mutations envBuyer exPausedState ⟨OfferAction.Submit, some exMoney⟩
    exBuyerParty "s1" exAddress none none none ContractStatus.Draft rfl).1

/-- C3: a sign_contract call on an unpaused contract whose state fails a signing
precondition returns success false with the message of the first failing check of
validate_contract_ready_for_signing, leaves the storage untouched (so zero audit entries
of any kind are produced) and emits only the request-submitted event. -/
theorem C3_signing_precondition_failure (env : Env) (s : PropertySale) (msg : String)
    (hp : s.paused = false)
    (hv : validate_contract_ready_for_signing s = Except.error msg) :
    sign_contract env s =
      (Except.ok { success := false, error_message := some msg }, s,
        [Event.SignContractRequestSubmitted env.caller env.block_number]) := by
  simp [sign_contract, hp, hv]

/-- C3 witness: signing with a mismatched purchase price fails with the mismatch message
and an unchanged state. -/
theorem C3_signing_precondition_failure_witness :
    sign_contract envSeller exMismatchState =
      (Except.ok (SignContractResponse.mk false
          (some "Purchase price (90 GBP) must equal offer amount (100 GBP)")),
        exMismatchState,
        [Event.SignContractRequestSubmitted 3 8]) :=
  C3_signing_precondition_failure envSeller exMismatchState
    "Purchase price (90 GBP) must equal offer amount (100 GBP)" rfl rfl

/-- C1 counterexample: a registered buyer submits an offer of 100 GBP on a fresh unpaused
contract; the single appended FunctionCall entry (at index 2) carries an empty embedded
field_changes list, so it does not include a change for offer or for status as the claim
demands — those changes are the two preceding DirectFieldChange entries. -/
theorem C1_submit_counterexample :
    ((manage_offer envBuyer exState0 ⟨OfferAction.Submit, some exMoney⟩).2.1.audit_log 2 =
      some (AuditLogEntry.FunctionCall 2 99 "manage_offer" 7 [])) ∧
    ((manage_offer envBuyer exState0 ⟨OfferAction.Submit, some exMoney⟩).2.1.audit_log 1 =
      some (AuditLogEntry.DirectFieldChange "status" 2 "Draft" "UnderOffer" 7 99)) ∧
    ((manage_offer envBuyer exState0 ⟨OfferAction.Submit, some exMoney⟩).2.1.audit_log_count
      = 3) := by
  refine ⟨by decide, by decide, by decide⟩

/-- C1 amended: a Submit by a registered buyer with a supplied amount on an unpaused
contract (with the always-empty pending buffer and a non-saturated counter) replaces the
offer with a Pending one, sets the contract status to UnderOffer, and appends exactly
three audit entries: a DirectFieldChange for offer, a DirectFieldChange for status, and
one FunctionCall entry tagged manage_offer whose embedded field_changes list is empty;
all earlier log indices are untouched. -/
theorem C1_submit_offer_audit_shape (env : Env) (s : PropertySale) (m : Money)
    (hp : s.paused = false)
    (hb : (is_caller_buyer s env.caller).1 = true)
    (hpend : s.pending_field_changes = [])
    (hcnt : s.audit_log_count + 3 ≤ U64MAX) :
    (manage_offer env s ⟨OfferAction.Submit, some m⟩).1 =
      Except.ok { success := true, error_message := none } ∧
    (manage_offer env s ⟨OfferAction.Submit, some m⟩).2.1.offer =
      some { offer := m, offer_status := OfferStatus.Pending,
             offer_date := env.block_timestamp } ∧
    (manage_offer env s ⟨OfferAction.Submit, some m⟩).2.1.status =
      ContractStatus.UnderOffer ∧
    (manage_offer env s ⟨OfferAction.Submit, some m⟩).2.1.audit_log_count =
      s.audit_log_count + 3 ∧
    (manage_offer env s ⟨OfferAction.Submit, some m⟩).2.1.audit_log s.audit_log_count =
      some (AuditLogEntry.DirectFieldChange "offer" env.caller (fmtOptionOffer s.offer)
        ("Some(" ++ fmtOffer { offer := m, offer_status := OfferStatus.Pending,
                               offer_date := env.block_timestamp } ++ ")")
        env.block_number env.block_timestamp) ∧
    (manage_offer env s ⟨OfferAction.Submit, some m⟩).2.1.audit_log (s.audit_log_count + 1) =
      some (AuditLogEntry.DirectFieldChange "status" env.caller (fmtContractStatus s.status)
        "UnderOffer" env.block_number env.block_timestamp) ∧
    (manage_offer env s ⟨OfferAction.Submit, some m⟩).2.1.audit_log (s.audit_log_count + 2) =
      some (AuditLogEntry.FunctionCall env.caller env.block_timestamp "manage_offer"
        env.block_number []) ∧
    ∀ i, i < s.audit_log_count →
      (manage_offer env s ⟨OfferAction.Submit, some m⟩).2.1.audit_log i = s.audit_log i := by
  have h1 : satAdd s.audit_log_count 1 = s.audit_log_count + 1 := by
    simp only [satAdd, U64MAX] at hcnt ⊢; omega
  have h2 : satAdd (s.audit_log_count + 1) 1 = s.audit_log_count + 2 := by
    simp only [satAdd, U64MAX] at hcnt ⊢; omega
  have h3 : satAdd (s.audit_log_count + 2) 1 = s.audit_log_count + 3 := by
    simp only [satAdd, U64MAX] at hcnt ⊢; omega
  simp only [manage_offer, manage_offer_finish, manage_offer_submit, log_direct_field_change,
    log_function_call, mapInsert, hp, hb, hpend, h1, h2, h3]
  simp [hp, hb, mapInsert]
  refine ⟨rfl, ?_⟩
  intro i hi
  have n2 : i ≠ s.audit_log_count + 2 := by omega
  have n1 : i ≠ s.audit_log_count + 1 := by omega
  have n0 : i ≠ s.audit_log_count := by omega
  simp [n0, n1, n2]

/-- C1 amended witness: the amended theorem applied to the concrete fresh contract. -/
theorem C1_submit_offer_audit_shape_witness :
    (manage_offer envBuyer exState0 ⟨OfferAction.Submit, some exMoney⟩).1 =
      Except.ok { success := true, error_message := none } ∧
    (manage_offer envBuyer exState0 ⟨OfferAction.Submit, some exMoney⟩).2.1.offer =
      some { offer := exMoney, offer_status := OfferStatus.Pending, offer_date := 99 } ∧
    (manage_offer envBuyer exState0 ⟨OfferAction.Submit, some exMoney⟩).2.1.status =
      ContractStatus.UnderOffer :=
  have h := C1_submit_offer_audit_shape envBuyer exState0 exMoney rfl (by decide) rfl
    (by decide)
  ⟨h.1, h.2.1, h.2.2.1⟩

/-- Helper: element lookup in a filterMap over a list on which the function is total. -/
theorem filterMap_getElem_opt_of_isSome {α β : Type} (f : α → Option β) :
    ∀ (l : List α), (∀ a ∈ l, (f a).isSome = true) → ∀ (k : Nat),
      (l.filterMap f)[k]? = l[k]?.bind f := by
  intro l
  induction l with
  | nil => intro _ k; simp
  | cons a t ih =>
    intro h k
    obtain ⟨b, hb⟩ := Option.isSome_iff_exists.mp (h a (by simp))
    cases k with
    | zero => simp [List.filterMap_cons, hb]
    | succ k =>
      simp only [List.filterMap_cons, hb, List.getElem?_cons_succ]
      exact ih (fun x hx => h x (by simp [hx])) k

/-- C7: for all start and limit (including limit zero and start beyond the count),
get_audit_log returns at most limit entries, and its k-th element is exactly the log
entry at index start + k when that index lies in the window up to
min (start + limit) audit_log_count, and nothing otherwise — so no entry at an index
at or beyond audit_log_count is ever returned and order follows the indices. -/
theorem C7_get_audit_log_window (s : PropertySale) (start limit : Nat)
    (hwf : ∀ i, i < s.audit_log_count → (s.audit_log i).isSome = true)
    (hc : s.audit_log_count ≤ U64MAX) :
    (get_audit_log s start limit).length ≤ limit ∧
    ∀ k, (get_audit_log s start limit)[k]? =
      if start + k < min (start + limit) s.audit_log_count then s.audit_log (start + k)
      else none := by
  constructor
  · have h1 := List.length_filterMap_le s.audit_log
      (List.range' start (min (satAdd start limit) s.audit_log_count - start))
    rw [List.length_range'] at h1
    have h2 : min (satAdd start limit) s.audit_log_count - start ≤ limit := by
      simp only [satAdd, U64MAX] at hc ⊢; omega
    simp only [get_audit_log]
    exact le_trans h1 h2
  · intro k
    simp only [get_audit_log]
    rw [filterMap_getElem_opt_of_isSome]
    · by_cases hk : k < min (satAdd start limit) s.audit_log_count - start
      · rw [List.getElem?_range' _ _ hk]
        have hcond : start + k < min (start + limit) s.audit_log_count := by
          simp only [satAdd, U64MAX] at hc hk ⊢; omega
        simp [hcond]
      · have hlen : (List.range' start
            (min (satAdd start limit) s.audit_log_count - start)).length ≤ k := by
          rw [List.length_range']; omega
        rw [List.getElem?_eq_none hlen]
        have hcond : ¬ (start + k < min (start + limit) s.audit_log_count) := by
          simp only [satAdd, U64MAX] at hc hk ⊢; omega
        simp [hcond]
    · intro i hi
      rw [List.mem_range'] at hi
      obtain ⟨j, hj, rfl⟩ := hi
      apply hwf
      simp only [satAdd, U64MAX] at hc hj ⊢; omega

/-- C7 witness: the window query applied to a concrete two-entry log. -/
theorem C7_get_audit_log_window_witness :
    (get_audit_log (runLogCalls c6S0 [c6Call1, c6Call2]) 1 5).length ≤ 5 ∧
    (get_audit_log (runLogCalls c6S0 [c6Call1, c6Call2]) 1 5)[0]? =
      (if 1 + 0 < min (1 + 5) (runLogCalls c6S0 [c6Call1, c6Call2]).audit_log_count
       then (runLogCalls c6S0 [c6Call1, c6Call2]).audit_log (1 + 0) else none) := by
  have h := C7_get_audit_log_window (runLogCalls c6S0 [c6Call1, c6Call2]) 1 5
    (by intro i hi
        have h2 : (runLogCalls c6S0 [c6Call1, c6Call2]).audit_log_count = 2 := by decide
        rw [h2] at hi
        interval_cases i <;> decide)
    (by decide)
  exact ⟨h.1, h.2 0⟩

/-- Helper: a guarded filterMap through the log equals filtering the retrieved entries. -/
theorem filterMap_guard_eq_filter (p : AuditLogEntry → Bool)
    (m : Nat → Option AuditLogEntry) :
    ∀ (l : List Nat),
      l.filterMap (fun i =>
        match m i with
        | some entry => if p entry then some entry else none
        | none => none)
      = (l.filterMap m).filter p := by
  intro l
  induction l with
  | nil => simp
  | cons a t ih =>
    cases hma : m a with
    | none => simp [List.filterMap_cons, hma, ih]
    | some e =>
      by_cases hpe : p e
      · simp [List.filterMap_cons, hma, hpe, List.filter_cons, ih]
      · simp [List.filterMap_cons, hma, hpe, List.filter_cons, ih]

/-- C8: the by-field query scans the whole log from index 0 with no pagination inputs,
and keeps exactly the entries matching the field: DirectFieldChange entries whose
field_name matches, and FunctionCall entries with at least one matching embedded change,
each retrieved entry appearing at most once per log index, in index order. -/
theorem C8_field_query_characterization (s : PropertySale) (field_name : String) :
    get_audit_log_field_changes_by_field s field_name =
      ((List.range s.audit_log_count).filterMap s.audit_log).filter
        (entry_matches_field_name field_name) ∧
    ∀ e : AuditLogEntry, entry_matches_field_name field_name e = true ↔
      ((∃ cb ov nv bn ts, e = AuditLogEntry.DirectFieldChange field_name cb ov nv bn ts) ∨
       (∃ c t f r cs, e = AuditLogEntry.FunctionCall c t f r cs ∧
          ∃ fc ∈ cs, fc.field_name = field_name)) := by
  constructor
  · simpa [get_audit_log_field_changes_by_field] using
      filterMap_guard_eq_filter (entry_matches_field_name field_name) s.audit_log
        (List.range s.audit_log_count)
  · intro e
    cases e with
    | FunctionCall c t f r cs =>
      simp only [entry_matches_field_name, List.any_eq_true, beq_iff_eq]
      constructor
      · intro h
        exact Or.inr ⟨c, t, f, r, cs, rfl, h⟩
      · rintro (⟨cb, ov, nv, bn, ts, h⟩ | ⟨c1, t1, f1, r1, cs1, heq, h⟩)
        · exact absurd h (by simp)
        · cases heq; exact h
    | DirectFieldChange fn cb ov nv bn ts =>
      simp only [entry_matches_field_name, beq_iff_eq]
      constructor
      · intro h
        subst h
        exact Or.inl ⟨cb, ov, nv, bn, ts, rfl⟩
      · rintro (⟨cb1, ov1, nv1, bn1, ts1, heq⟩ | ⟨c1, t1, f1, r1, cs1, heq, h⟩)
        · cases heq; rfl
        · exact absurd heq (by simp)

/-- Helper: repeated direct log calls fill the log densely up to the saturation bound. -/
theorem runLogCalls_replicate_direct (n : Nat) (hn : n ≤ U64MAX + 1) :
    (runLogCalls c6S0 (List.replicate n c6Call1)).audit_log_count = min n U64MAX ∧
    ∀ i, (runLogCalls c6S0 (List.replicate n c6Call1)).audit_log i =
      if i < n then some c6Entry1 else none := by
  induction n with
  | zero =>
    constructor
    · simp [runLogCalls, c6S0, PropertySale.new]
    · intro i; simp [runLogCalls, c6S0, PropertySale.new]
  | succ n ih =>
    have hnM : n ≤ U64MAX := by omega
    obtain ⟨hc, hl⟩ := ih (by omega)
    have hcn : (runLogCalls c6S0 (List.replicate n c6Call1)).audit_log_count = n := by
      rw [hc]; omega
    have happ : ∀ st : PropertySale,
        applyLogCall st c6Call1 = (log_direct_field_change c6Env st "a" "o" "n").1 :=
      fun st => rfl
    have hstep : runLogCalls c6S0 (List.replicate (n + 1) c6Call1)
        = applyLogCall (runLogCalls c6S0 (List.replicate n c6Call1)) c6Call1 := by
      rw [List.replicate_succ']
      simp [runLogCalls, List.foldl_append]
    constructor
    · rw [hstep, happ]
      simp only [log_direct_field_change, satAdd, hcn]
    · intro i
      rw [hstep, happ]
      simp only [log_direct_field_change, mapInsert, hcn]
      by_cases hi : i = n
      · subst hi
        simp [c6Entry1, c6Env]
      · rw [if_neg hi, hl i]
        by_cases hlt : i < n
        · rw [if_pos hlt, if_pos (by omega)]
        · rw [if_neg hlt, if_neg (by omega)]

/-- C6 counterexample: starting from construction and performing 2^64 + 1 identical
log-producing calls followed by one different call, the index u64::MAX is written by the
saturated calls and then overwritten by the later call, and audit_log_count differs from
the number of log-producing calls — refuting both the exact count and the immutability of
already-written indices once the counter saturates. -/
theorem C6_saturation_counterexample :
    (runLogCalls c6S0 (List.replicate (U64MAX + 1) c6Call1)).audit_log U64MAX
      = some c6Entry1 ∧
    (runLogCalls c6S0 (List.replicate (U64MAX + 1) c6Call1 ++ [c6Call2])).audit_log U64MAX
      = some c6Entry2 ∧
    c6Entry1 ≠ c6Entry2 ∧
    (runLogCalls c6S0 (List.replicate (U64MAX + 1) c6Call1 ++ [c6Call2])).audit_log_count
      ≠ (List.replicate (U64MAX + 1) c6Call1 ++ [c6Call2]).length := by
  obtain ⟨hc, hl⟩ := runLogCalls_replicate_direct (U64MAX + 1) (le_refl _)
  have hc' : (runLogCalls c6S0 (List.replicate (U64MAX + 1) c6Call1)).audit_log_count
      = U64MAX := by rw [hc]; omega
  have hstep : runLogCalls c6S0 (List.replicate (U64MAX + 1) c6Call1 ++ [c6Call2])
      = applyLogCall (runLogCalls c6S0 (List.replicate (U64MAX + 1) c6Call1)) c6Call2 := by
    simp [runLogCalls, List.foldl_append]
  have happ2 : ∀ st : PropertySale,
      applyLogCall st c6Call2 = (log_direct_field_change c6Env st "b" "o" "n").1 :=
    fun st => rfl
  refine ⟨?_, ?_, ?_, ?_⟩
  · rw [hl, if_pos (by simp only [U64MAX]; omega)]
  · rw [hstep, happ2]
    simp only [log_direct_field_change, mapInsert, hc']
    simp [c6Entry2, c6Env]
  · simp [c6Entry1, c6Entry2]
  · rw [hstep, happ2]
    have hcnt2 : ((log_direct_field_change c6Env
        (runLogCalls c6S0 (List.replicate (U64MAX + 1) c6Call1)) "b" "o" "n").1).audit_log_count
        = U64MAX := by
      simp only [log_direct_field_change]
      rw [hc']
      simp only [satAdd]
      omega
    rw [hcnt2, List.length_append, List.length_replicate]
    simp only [List.length_cons, List.length_nil, U64MAX]
    omega

/-- C6 amended: audit_log_count equals the number of log-producing calls clamped at
u64::MAX (exact equality until the counter saturates, which then stays at the maximum
instead of wrapping), and every index below the current count is immutable: reading it
after any further log-producing calls returns exactly the entry previously stored. -/
theorem C6_count_and_immutability (s : PropertySale) (cs : List LogCall)
    (hc : s.audit_log_count ≤ U64MAX) :
    (runLogCalls s cs).audit_log_count = min (s.audit_log_count + cs.length) U64MAX ∧
    ∀ i, i < s.audit_log_count → (runLogCalls s cs).audit_log i = s.audit_log i := by
  induction cs generalizing s with
  | nil =>
    refine ⟨?_, fun i _ => rfl⟩
    simp [runLogCalls]; omega
  | cons c rest ih =>
    have hstep : runLogCalls s (c :: rest) = runLogCalls (applyLogCall s c) rest := by
      simp [runLogCalls]
    have hcount : (applyLogCall s c).audit_log_count = satAdd s.audit_log_count 1 := by
      cases c <;> simp [applyLogCall, log_function_call, log_direct_field_change]
    have hlog : ∀ i, i ≠ s.audit_log_count →
        (applyLogCall s c).audit_log i = s.audit_log i := by
      intro i hi
      cases c <;>
        simp [applyLogCall, log_function_call, log_direct_field_change, mapInsert, hi]
    have hcM : (applyLogCall s c).audit_log_count ≤ U64MAX := by
      rw [hcount]; simp only [satAdd]; omega
    obtain ⟨ihc, ihl⟩ := ih (applyLogCall s c) hcM
    constructor
    · rw [hstep, ihc, hcount]
      simp only [satAdd, List.length_cons]
      omega
    · intro i hi
      rw [hstep, ihl i (by rw [hcount]; simp only [satAdd]; omega), hlog i (by omega)]

/-- C6 amended witness: two concrete log calls from construction give count two. -/
theorem C6_count_and_immutability_witness :
    (runLogCalls c6S0 [c6Call1, c6Call2]).audit_log_count
      = min (c6S0.audit_log_count + ([c6Call1, c6Call2] : List LogCall).length) U64MAX :=
  (C6_count_and_immutability c6S0 [c6Call1, c6Call2] (by decide)).1

/-- Helper: a successful sign_first_match preserves the list of party ids. -/
theorem sign_first_match_ok_map_id (caller ts : Nat) :
    ∀ (l l' : List Party), (sign_first_match caller ts l).1 = Except.ok (some l') →
      l'.map Party.party_id = l.map Party.party_id := by
  intro l
  induction l with
  | nil => intro l' h; simp [sign_first_match] at h
  | cons p rest ih =>
    intro l' h
    simp only [sign_first_match] at h
    by_cases hm : (is_caller_matching_account caller p.wallet_address).1
    · simp only [hm, if_true] at h
      by_cases hs : p.signed_at.isSome
      · simp [hs] at h
      · simp only [hs, Bool.false_eq_true, if_false] at h
        have hl : ({ p with signed_at := some ts } :: rest) = l' := by simpa using h
        subst hl
        simp
    · simp only [hm, Bool.false_eq_true, if_false] at h
      cases hr : (sign_first_match caller ts rest).1 with
      | error e => simp [hr] at h
      | ok o =>
        cases o with
        | none => simp [hr] at h
        | some rest' =>
          simp only [hr] at h
          have hl : (p :: rest') = l' := by simpa using h
          subst hl
          simp only [List.map_cons]
          rw [ih rest' hr]

/-- Helper: a successful find_and_sign_party keeps party ids, one registry untouched, and
every non-party field of the storage unchanged. -/
theorem find_and_sign_party_ok_ids (env : Env) (s s1 : PropertySale)
    (h : (find_and_sign_party env s).1 = Except.ok s1) :
    s1.sellers.map Party.party_id = s.sellers.map Party.party_id ∧
    s1.buyers.map Party.party_id = s.buyers.map Party.party_id ∧
    s1.audit_log = s.audit_log ∧
    s1.audit_log_count = s.audit_log_count ∧
    s1.pending_field_changes = s.pending_field_changes ∧
    s1.status = s.status ∧
    (s1.sellers = s.sellers ∨ s1.buyers = s.buyers) := by
  unfold find_and_sign_party at h
  cases hrs : (sign_first_match env.caller env.block_timestamp s.sellers).1 with
  | error e => simp [hrs] at h
  | ok o =>
    cases o with
    | some sellers' =>
      simp only [hrs] at h
      have hid := sign_first_match_ok_map_id env.caller env.block_timestamp
        s.sellers sellers' hrs
      have hs1 : ({ s with sellers := sellers' } : PropertySale) = s1 := by simpa using h
      subst hs1
      exact ⟨hid, rfl, rfl, rfl, rfl, rfl, Or.inr rfl⟩
    | none =>
      simp only [hrs] at h
      cases hrb : (sign_first_match env.caller env.block_timestamp s.buyers).1 with
      | error e => simp [hrb] at h
      | ok o2 =>
        cases o2 with
        | none => simp [hrb] at h
        | some buyers' =>
          simp only [hrb] at h
          have hid := sign_first_match_ok_map_id env.caller env.block_timestamp
            s.buyers buyers' hrb
          have hs1 : ({ s with buyers := buyers' } : PropertySale) = s1 := by simpa using h
          subst hs1
          exact ⟨rfl, hid, rfl, rfl, rfl, rfl, Or.inl rfl⟩

/-- Helper: manage_offer never changes the party registries. -/
theorem manage_offer_parties (env : Env) (s : PropertySale) (request : ManageOfferRequest) :
    (manage_offer env s request).2.1.sellers = s.sellers ∧
    (manage_offer env s request).2.1.buyers = s.buyers := by
  rcases request with ⟨action, offer_opt⟩
  by_cases hp : s.paused <;>
    cases action <;> cases offer_opt <;> cases ho : s.offer <;>
      simp [manage_offer, manage_offer_finish, manage_offer_submit, manage_offer_update,
        log_function_call, log_direct_field_change, hp, ho] <;>
        split <;> simp

/-- Helper: sign_contract preserves the party-id lists of both registries. -/
theorem sign_contract_party_ids (env : Env) (s : PropertySale) :
    (sign_contract env s).2.1.sellers.map Party.party_id
      = s.sellers.map Party.party_id ∧
    (sign_contract env s).2.1.buyers.map Party.party_id
      = s.buyers.map Party.party_id := by
  by_cases hp : s.paused
  · simp [sign_contract, hp]
  · simp only [sign_contract, hp, Bool.false_eq_true, if_false]
    cases hv : validate_contract_ready_for_signing s with
    | error msg => simp [hv]
    | ok u =>
      cases u
      simp only [hv]
      cases hf : (find_and_sign_party env s).1 with
      | error e => simp [hf, log_function_call]
      | ok s1 =>
        obtain ⟨hid1, hid2, -⟩ := find_and_sign_party_ok_ids env s s1 hf
        simp only [hf]
        split <;> (try split) <;>
          simp [log_function_call, log_direct_field_change, hid1, hid2]

/-- Helper: every mutating public call preserves duplicate-freedom of party ids. -/
theorem applyOp_party_ids_unique (s : PropertySale) (op : Op)
    (h : party_ids_unique s) : party_ids_unique (applyOp s op) := by
  obtain ⟨hs, hb⟩ := h
  cases op with
  | pauseOp env =>
    simp only [applyOp]
    unfold pause
    split
    · exact ⟨hs, hb⟩
    · exact ⟨hs, hb⟩
  | unpauseOp env =>
    simp only [applyOp]
    unfold unpause
    split
    · exact ⟨hs, hb⟩
    · exact ⟨hs, hb⟩
  | manageOfferOp env request =>
    obtain ⟨h1, h2⟩ := manage_offer_parties env s request
    simp only [applyOp]
    unfold party_ids_unique
    rw [h1, h2]
    exact ⟨hs, hb⟩
  | signContractOp env =>
    obtain ⟨h1, h2⟩ := sign_contract_party_ids env s
    simp only [applyOp]
    unfold party_ids_unique
    rw [h1, h2]
    exact ⟨hs, hb⟩
  | addSellerOp env party =>
    simp only [applyOp]
    unfold add_seller
    split
    · exact ⟨hs, hb⟩
    split
    · exact ⟨hs, hb⟩
    split
    · exact ⟨hs, hb⟩
    split
    · exact ⟨hs, hb⟩
    · rename_i hpa hca hval hdup
      refine ⟨?_, hb⟩
      show ((s.sellers ++ [party]).map Party.party_id).Nodup
      rw [List.map_append, List.nodup_append]
      refine ⟨hs, by simp, ?_⟩
      intro x hx hx2
      simp only [List.map_cons, List.map_nil, List.mem_singleton] at hx2
      subst hx2
      obtain ⟨q, hq, hqid⟩ := List.mem_map.mp hx
      simp only [List.any_eq_true, beq_iff_eq, not_exists, not_and] at hdup
      exact hdup q hq hqid
  | removeSellerOp env pid =>
    simp only [applyOp]
    unfold remove_seller
    split
    · exact ⟨hs, hb⟩
    split
    · exact ⟨hs, hb⟩
    dsimp only
    split
    · exact ⟨List.Nodup.sublist
        (List.Sublist.map Party.party_id (List.filter_sublist s.sellers)) hs, hb⟩
    · exact ⟨List.Nodup.sublist
        (List.Sublist.map Party.party_id (List.filter_sublist s.sellers)) hs, hb⟩
  | addBuyerOp env party =>
    simp only [applyOp]
    unfold add_buyer
    split
    · exact ⟨hs, hb⟩
    split
    · exact ⟨hs, hb⟩
    split
    · exact ⟨hs, hb⟩
    split
    · exact ⟨hs, hb⟩
    · rename_i hpa hca hval hdup
      refine ⟨hs, ?_⟩
      show ((s.buyers ++ [party]).map Party.party_id).Nodup
      rw [List.map_append, List.nodup_append]
      refine ⟨hb, by simp, ?_⟩
      intro x hx hx2
      simp only [List.map_cons, List.map_nil, List.mem_singleton] at hx2
      subst hx2
      obtain ⟨q, hq, hqid⟩ := List.mem_map.mp hx
      simp only [List.any_eq_true, beq_iff_eq, not_exists, not_and] at hdup
      exact hdup q hq hqid
  | removeBuyerOp env pid =>
    simp only [applyOp]
    unfold remove_buyer
    split
    · exact ⟨hs, hb⟩
    split
    · exact ⟨hs, hb⟩
    dsimp only
    split
    · exact ⟨hs, List.Nodup.sublist
        (List.Sublist.map Party.party_id (List.filter_sublist s.buyers)) hb⟩
    · exact ⟨hs, List.Nodup.sublist
        (List.Sublist.map Party.party_id (List.filter_sublist s.buyers)) hb⟩
  | setPropertyAddressOp env v =>
    simp only [applyOp]
    unfold set_property_address
    split
    · exact ⟨hs, hb⟩
    split
    · exact ⟨hs, hb⟩
    split
    · exact ⟨hs, hb⟩
    · exact ⟨hs, hb⟩
  | setPurchasePriceOp env v =>
    simp only [applyOp]
    unfold set_purchase_price
    split
    · exact ⟨hs, hb⟩
    split
    · exact ⟨hs, hb⟩
    · exact ⟨hs, hb⟩
  | setDepositOp env v =>
    simp only [applyOp]
    unfold set_deposit
    split
    · exact ⟨hs, hb⟩
    split
    · exact ⟨hs, hb⟩
    · exact ⟨hs, hb⟩
  | setBalanceOp env v =>
    simp only [applyOp]
    unfold set_balance
    split
    · exact ⟨hs, hb⟩
    split
    · exact ⟨hs, hb⟩
    · exact ⟨hs, hb⟩
  | setOfferOp env v =>
    simp only [applyOp]
    unfold set_offer
    split
    · exact ⟨hs, hb⟩
    split
    · exact ⟨hs, hb⟩
    · exact ⟨hs, hb⟩
  | setAgreementDateOp env v =>
    simp only [applyOp]
    unfold set_agreement_date
    split
    · exact ⟨hs, hb⟩
    split
    · exact ⟨hs, hb⟩
    · exact ⟨hs, hb⟩
  | setStatusOp env v =>
    simp only [applyOp]
    unfold set_status
    split
    · exact ⟨hs, hb⟩
    split
    · exact ⟨hs, hb⟩
    · exact ⟨hs, hb⟩

/-- Helper: duplicate-freedom of party ids is preserved by whole call sequences. -/
theorem runOps_party_ids_unique (ops : List Op) :
    ∀ s : PropertySale, party_ids_unique s → party_ids_unique (runOps s ops) := by
  induction ops with
  | nil => intro s h; exact h
  | cons op rest ih =>
    intro s h
    exact ih (applyOp s op) (applyOp_party_ids_unique s op h)

/-- C9 counterexample: constructing the contract with the same valid party twice keeps
both copies — the constructor filters invalid parties but never deduplicates, so the
sellers registry holds a duplicated party_id in a reachable (freshly constructed) state. -/
theorem C9_duplicate_at_construction_counterexample :
    (PropertySale.new envOwner [exSellerParty, exSellerParty] [] exAddress
      none none none none none ContractStatus.Draft).1.sellers
      = [exSellerParty, exSellerParty] ∧
    ¬ ((PropertySale.new envOwner [exSellerParty, exSellerParty] [] exAddress
      none none none none none ContractStatus.Draft).1.sellers.map Party.party_id).Nodup := by
  refine ⟨by decide, by decide⟩

/-- C9 amended: party ids stay unique within the sellers registry and within the buyers
registry across construction and every sequence of mutating calls, provided the lists
supplied at construction are themselves free of duplicate party ids (construction filters
invalid parties, which preserves but does not create uniqueness; add_seller/add_buyer
check for duplicates; removal and signing never change the id lists). -/
theorem C9_party_id_uniqueness (env : Env) (sellers buyers : List Party)
    (pa : PropertyAddress) (pp dep bal : Option Money) (o : Option Offer)
    (ad : Option Nat) (st : ContractStatus) (ops : List Op)
    (hs : (sellers.map Party.party_id).Nodup) (hb : (buyers.map Party.party_id).Nodup) :
    party_ids_unique
      (runOps (PropertySale.new env sellers buyers pa pp dep bal o ad st).1 ops) := by
  apply runOps_party_ids_unique
  constructor
  · exact List.Nodup.sublist (List.Sublist.map Party.party_id (List.filter_sublist sellers)) hs
  · exact List.Nodup.sublist (List.Sublist.map Party.party_id (List.filter_sublist buyers)) hb

/-- C9 amended witness: the amended theorem applied to a concrete construction followed
by one successful add_seller call. -/
theorem C9_party_id_uniqueness_witness :
    party_ids_unique
      (runOps (PropertySale.new envOwner [exSellerParty] [exBuyerParty] exAddress
        none none none none none ContractStatus.Draft).1
        [Op.addSellerOp envOwner exBuyerParty]) :=
  C9_party_id_uniqueness envOwner [exSellerParty] [exBuyerParty] exAddress none none none
    none none ContractStatus.Draft [Op.addSellerOp envOwner exBuyerParty]
    (by decide) (by decide)

/-- Helper: the batching invariant only depends on the pending buffer and the log. -/
theorem audit_batch_inv_of_eq (s t : PropertySale)
    (hp : t.pending_field_changes = s.pending_field_changes)
    (hl : t.audit_log = s.audit_log) (h : audit_batch_inv s) : audit_batch_inv t := by
  obtain ⟨h1, h2⟩ := h
  refine ⟨by rw [hp, h1], ?_⟩
  intro i c t2 f r cs hi
  rw [hl] at hi
  exact h2 i c t2 f r cs hi

/-- Helper: the batching invariant survives a direct field-change log write. -/
theorem audit_batch_inv_log_direct (env : Env) (s : PropertySale)
    (f o n : String) (h : audit_batch_inv s) :
    audit_batch_inv (log_direct_field_change env s f o n).1 := by
  obtain ⟨hpend, hlog⟩ := h
  refine ⟨hpend, ?_⟩
  intro i c t fn r cs hi
  simp only [log_direct_field_change, mapInsert] at hi
  by_cases hik : i = s.audit_log_count
  · rw [if_pos hik] at hi
    exact absurd hi (by simp)
  · rw [if_neg hik] at hi
    exact hlog i c t fn r cs hi

/-- Helper: with an empty pending buffer, a function-call log write keeps the buffer
empty and appends a FunctionCall entry with an empty embedded change list. -/
theorem audit_batch_inv_log_fn (env : Env) (s : PropertySale) (f : String) (r : Nat)
    (h : audit_batch_inv s) :
    audit_batch_inv (log_function_call env s f r).1 := by
  obtain ⟨hpend, hlog⟩ := h
  refine ⟨rfl, ?_⟩
  intro i c t fn rid cs hi
  simp only [log_function_call, mapInsert] at hi
  by_cases hik : i = s.audit_log_count
  · rw [if_pos hik, hpend] at hi
    simp only [Option.some.injEq, AuditLogEntry.FunctionCall.injEq] at hi
    exact hi.2.2.2.2.symm
  · rw [if_neg hik] at hi
    exact hlog i c t fn rid cs hi

/-- Helper: the batching invariant survives the Submit branch of manage_offer. -/
theorem manage_offer_submit_inv (env : Env) (s : PropertySale) (o : Option Money)
    (h : audit_batch_inv s) : audit_batch_inv (manage_offer_submit env s o).2.1 := by
  cases o with
  | none => exact h
  | some m =>
    simp only [manage_offer_submit]
    exact audit_batch_inv_log_direct env _ _ _ _
      (audit_batch_inv_of_eq _ _ rfl rfl (audit_batch_inv_log_direct env s _ _ _ h))

/-- Helper: the batching invariant survives the update branch of manage_offer. -/
theorem manage_offer_update_inv (env : Env) (s : PropertySale) (action : OfferAction)
    (h : audit_batch_inv s) : audit_batch_inv (manage_offer_update env s action).2.1 := by
  cases ho : s.offer with
  | none => simp only [manage_offer_update, ho]; exact h
  | some eo =>
    simp only [manage_offer_update, ho]
    cases action with
    | Cancel =>
      exact audit_batch_inv_log_direct env _ _ _ _
        (audit_batch_inv_of_eq _ _ rfl rfl
          (audit_batch_inv_log_direct env _ _ _ _
            (audit_batch_inv_of_eq _ _ rfl rfl h)))
    | Submit =>
      exact audit_batch_inv_log_direct env _ _ _ _ (audit_batch_inv_of_eq _ _ rfl rfl h)
    | Accept =>
      exact audit_batch_inv_log_direct env _ _ _ _ (audit_batch_inv_of_eq _ _ rfl rfl h)
    | Reject =>
      exact audit_batch_inv_log_direct env _ _ _ _ (audit_batch_inv_of_eq _ _ rfl rfl h)

/-- Helper: the batching invariant survives the whole manage_offer call. -/
theorem manage_offer_inv (env : Env) (s : PropertySale) (request : ManageOfferRequest)
    (h : audit_batch_inv s) : audit_batch_inv (manage_offer env s request).2.1 := by
  rcases request with ⟨action, offer_opt⟩
  by_cases hp : s.paused
  · simp only [manage_offer, hp, if_true]; exact h
  · simp only [manage_offer, hp, Bool.false_eq_true, if_false]
    cases action with
    | Submit =>
      dsimp only
      split
      · exact audit_batch_inv_log_fn env _ _ _ (manage_offer_submit_inv env s _ h)
      · exact h
    | Accept =>
      dsimp only
      split
      · exact audit_batch_inv_log_fn env _ _ _ (manage_offer_update_inv env s _ h)
      · exact h
    | Reject =>
      dsimp only
      split
      · exact audit_batch_inv_log_fn env _ _ _ (manage_offer_update_inv env s _ h)
      · exact h
    | Cancel =>
      dsimp only
      split
      · exact audit_batch_inv_log_fn env _ _ _ (manage_offer_update_inv env s _ h)
      · exact h

/-- Helper: the batching invariant survives the whole sign_contract call. -/
theorem sign_contract_inv (env : Env) (s : PropertySale)
    (h : audit_batch_inv s) : audit_batch_inv (sign_contract env s).2.1 := by
  by_cases hp : s.paused
  · simp only [sign_contract, hp, if_true]; exact h
  · simp only [sign_contract, hp, Bool.false_eq_true, if_false]
    cases hv : validate_contract_ready_for_signing s with
    | error msg => simp only [hv]; exact h
    | ok u =>
      cases u
      simp only [hv]
      cases hf : (find_and_sign_party env s).1 with
      | error e =>
        simp only [hf]
        exact audit_batch_inv_log_fn env s _ _ h
      | ok s1 =>
        simp only [hf]
        obtain ⟨-, -, hlog, -, hpend, -, -⟩ := find_and_sign_party_ok_ids env s s1 hf
        have h1 : audit_batch_inv s1 :=
          audit_batch_inv_of_eq s s1 hpend hlog h
        split
        · exact audit_batch_inv_log_fn env _ _ _
            (audit_batch_inv_log_direct env _ _ _ _
              (audit_batch_inv_of_eq _ _ rfl rfl
                (audit_batch_inv_log_direct env _ _ _ _
                  (audit_batch_inv_log_direct env s1 _ _ _ h1))))
        · split
          · exact audit_batch_inv_log_fn env _ _ _
              (audit_batch_inv_log_direct env _ _ _ _
                (audit_batch_inv_of_eq _ _ rfl rfl
                  (audit_batch_inv_log_direct env _ _ _ _
                    (audit_batch_inv_log_direct env s1 _ _ _ h1))))
          · exact audit_batch_inv_log_fn env _ _ _
              (audit_batch_inv_log_direct env _ _ _ _
                (audit_batch_inv_log_direct env s1 _ _ _ h1))

/-- Helper: the batching invariant survives every mutating public call. -/
theorem applyOp_audit_batch_inv (s : PropertySale) (op : Op)
    (h : audit_batch_inv s) : audit_batch_inv (applyOp s op) := by
  cases op with
  | pauseOp env =>
    simp only [applyOp]
    unfold pause
    split
    · exact h
    · exact audit_batch_inv_of_eq _ _ rfl rfl h
  | unpauseOp env =>
    simp only [applyOp]
    unfold unpause
    split
    · exact h
    · exact audit_batch_inv_of_eq _ _ rfl rfl h
  | manageOfferOp env request =>
    simp only [applyOp]
    exact manage_offer_inv env s request h
  | signContractOp env =>
    simp only [applyOp]
    exact sign_contract_inv env s h
  | addSellerOp env party =>
    simp only [applyOp]
    unfold add_seller
    split
    · exact h
    split
    · exact h
    split
    · exact h
    split
    · exact h
    · exact audit_batch_inv_log_direct env _ _ _ _
        (audit_batch_inv_of_eq _ _ rfl rfl h)
  | removeSellerOp env pid =>
    simp only [applyOp]
    unfold remove_seller
    split
    · exact h
    split
    · exact h
    dsimp only
    split
    · exact audit_batch_inv_of_eq _ _ rfl rfl h
    · exact audit_batch_inv_log_direct env _ _ _ _
        (audit_batch_inv_of_eq _ _ rfl rfl h)
  | addBuyerOp env party =>
    simp only [applyOp]
    unfold add_buyer
    split
    · exact h
    split
    · exact h
    split
    · exact h
    split
    · exact h
    · exact audit_batch_inv_log_direct env _ _ _ _
        (audit_batch_inv_of_eq _ _ rfl rfl h)
  | removeBuyerOp env pid =>
    simp only [applyOp]
    unfold remove_buyer
    split
    · exact h
    split
    · exact h
    dsimp only
    split
    · exact audit_batch_inv_of_eq _ _ rfl rfl h
    · exact audit_batch_inv_log_direct env _ _ _ _
        (audit_batch_inv_of_eq _ _ rfl rfl h)
  | setPropertyAddressOp env v =>
    simp only [applyOp]
    unfold set_property_address
    split
    · exact h
    split
    · exact h
    split
    · exact h
    · exact audit_batch_inv_of_eq _ _ rfl rfl
        (audit_batch_inv_log_direct env s _ _ _ h)
  | setPurchasePriceOp env v =>
    simp only [applyOp]
    unfold set_purchase_price
    split
    · exact h
    split
    · exact h
    · exact audit_batch_inv_of_eq _ _ rfl rfl
        (audit_batch_inv_log_direct env s _ _ _ h)
  | setDepositOp env v =>
    simp only [applyOp]
    unfold set_deposit
    split
    · exact h
    split
    · exact h
    · exact audit_batch_inv_of_eq _ _ rfl rfl
        (audit_batch_inv_log_direct env s _ _ _ h)
  | setBalanceOp env v =>
    simp only [applyOp]
    unfold set_balance
    split
    · exact h
    split
    · exact h
    · exact audit_batch_inv_of_eq _ _ rfl rfl
        (audit_batch_inv_log_direct env s _ _ _ h)
  | setOfferOp env v =>
    simp only [applyOp]
    unfold set_offer
    split
    · exact h
    split
    · exact h
    · exact audit_batch_inv_of_eq _ _ rfl rfl
        (audit_batch_inv_log_direct env s _ _ _ h)
  | setAgreementDateOp env v =>
    simp only [applyOp]
    unfold set_agreement_date
    split
    · exact h
    split
    · exact h
    · exact audit_batch_inv_of_eq _ _ rfl rfl
        (audit_batch_inv_log_direct env s _ _ _ h)
  | setStatusOp env v =>
    simp only [applyOp]
    unfold set_status
    split
    · exact h
    split
    · exact h
    · exact audit_batch_inv_of_eq _ _ rfl rfl
        (audit_batch_inv_log_direct env s _ _ _ h)

/-- Helper: the batching invariant survives whole call sequences. -/
theorem runOps_audit_batch_inv (ops : List Op) :
    ∀ s : PropertySale, audit_batch_inv s → audit_batch_inv (runOps s ops) := by
  induction ops with
  | nil => intro s h; exact h
  | cons op rest ih =>
    intro s h
    exact ih (applyOp s op) (applyOp_audit_batch_inv s op h)

/-- C10: the pending field-change buffer is empty at construction and stays empty across
every sequence of public operations (so it is empty at the start and end of each), and
every FunctionCall entry ever present in the audit log embeds an empty field_changes
list — the buffering primitive log_field_change is never invoked by the public
operations, whose field changes all go through immediate DirectFieldChange entries. -/
theorem C10_pending_buffer_always_empty (env : Env) (sellers buyers : List Party)
    (pa : PropertyAddress) (pp dep bal : Option Money) (o : Option Offer)
    (ad : Option Nat) (st : ContractStatus) (s : PropertySale) (ops : List Op)
    (h : audit_batch_inv s) :
    audit_batch_inv (PropertySale.new env sellers buyers pa pp dep bal o ad st).1 ∧
    audit_batch_inv (runOps s ops) := by
  constructor
  · exact ⟨rfl, fun i c t f r cs hi => by simp [PropertySale.new] at hi⟩
  · exact runOps_audit_batch_inv ops s h

/-- C10 witness: the invariant holds after a concrete successful offer submission. -/
theorem C10_pending_buffer_always_empty_witness :
    audit_batch_inv
      (runOps exState0 [Op.manageOfferOp envBuyer ⟨OfferAction.Submit, some exMoney⟩]) :=
  (C10_pending_buffer_always_empty envOwner [] [] exAddress none none none none none
    ContractStatus.Draft exState0 [Op.manageOfferOp envBuyer ⟨OfferAction.Submit, some exMoney⟩]
    ⟨rfl, fun i c t f r cs hi => by simp [exState0, PropertySale.new] at hi⟩).2

/-- Helper: a passing validation implies both registries are non-empty. -/
theorem validate_ok_nonempty (s : PropertySale)
    (hv : validate_contract_ready_for_signing s = Except.ok ()) :
    s.sellers ≠ [] ∧ s.buyers ≠ [] := by
  unfold validate_contract_ready_for_signing at hv
  split at hv
  · exact absurd hv (by simp)
  · split at hv
    · exact absurd hv (by simp)
    · rename_i h1 h2
      constructor
      · intro hnil; rw [hnil] at h1; simp at h1
      · intro hnil; rw [hnil] at h2; simp at h2

/-- Helper: if the first matching party of the list has already signed, the scan fails
with InvalidInput. -/
theorem sign_first_match_signed_err (caller ts : Nat) :
    ∀ (l : List Party) (p : Party),
      l.find? (fun q => q.wallet_address == caller) = some p →
      p.signed_at.isSome = true →
      (sign_first_match caller ts l).1 = Except.error ContractError.InvalidInput := by
  intro l
  induction l with
  | nil => intro p h _; simp at h
  | cons q rest ih =>
    intro p hfind hsig
    simp only [List.find?_cons] at hfind
    by_cases hm : q.wallet_address = caller
    · have hbeq : (q.wallet_address == caller) = true := by simp [hm]
      simp only [hbeq] at hfind
      simp only [Option.some.injEq] at hfind
      subst hfind
      have hm2 : (caller == q.wallet_address) = true := by simp [hm]
      simp only [sign_first_match, is_caller_matching_account, hm2, if_true, hsig]
    · have hbeq : (q.wallet_address == caller) = false := by simp [hm]
      simp only [hbeq] at hfind
      have hm2 : (caller == q.wallet_address) = false := by
        simp only [beq_eq_false_iff_ne]
        exact fun he => hm he.symm
      simp only [sign_first_match, is_caller_matching_account, hm2, Bool.false_eq_true,
        if_false]
      rw [ih p hfind hsig]

/-- Helper: if no party of the list matches the caller, the scan returns none. -/
theorem sign_first_match_none_of_find_none (caller ts : Nat) :
    ∀ (l : List Party), l.find? (fun q => q.wallet_address == caller) = none →
      (sign_first_match caller ts l).1 = Except.ok none := by
  intro l
  induction l with
  | nil => intro h; simp [sign_first_match]
  | cons q rest ih =>
    intro hfind
    simp only [List.find?_cons] at hfind
    by_cases hm : q.wallet_address = caller
    · have hbeq : (q.wallet_address == caller) = true := by simp [hm]
      simp only [hbeq] at hfind
      exact absurd hfind (by simp)
    · have hbeq : (q.wallet_address == caller) = false := by simp [hm]
      simp only [hbeq] at hfind
      have hm2 : (caller == q.wallet_address) = false := by
        simp only [beq_eq_false_iff_ne]
        exact fun he => hm he.symm
      simp only [sign_first_match, is_caller_matching_account, hm2, Bool.false_eq_true,
        if_false]
      rw [ih hfind]

/-- Helper: all_parties_signed reads only the registries, which direct logging keeps. -/
theorem all_parties_signed_log_direct (env : Env) (s : PropertySale) (f o n : String) :
    all_parties_signed (log_direct_field_change env s f o n).1 = all_parties_signed s :=
  rfl

/-- Helper: shape of sign_contract when the party scan fails. -/
theorem sign_contract_err_shape (env : Env) (s : PropertySale) (e : ContractError)
    (hp : s.paused = false)
    (hv : validate_contract_ready_for_signing s = Except.ok ())
    (hf : (find_and_sign_party env s).1 = Except.error e) :
    (sign_contract env s).1
      = Except.ok { success := false, error_message := some (sign_error_message e) } ∧
    (sign_contract env s).2.1.sellers = s.sellers ∧
    (sign_contract env s).2.1.buyers = s.buyers ∧
    (sign_contract env s).2.1.status = s.status := by
  simp only [sign_contract, hp, Bool.false_eq_true, if_false, hv, hf]
  cases e <;> simp [sign_error_message, log_function_call]

/-- Helper: shape of sign_contract when the party scan succeeds. -/
theorem sign_contract_ok_shape (env : Env) (s s1 : PropertySale)
    (hp : s.paused = false)
    (hv : validate_contract_ready_for_signing s = Except.ok ())
    (hf : (find_and_sign_party env s).1 = Except.ok s1) :
    (sign_contract env s).1 = Except.ok { success := true, error_message := none } ∧
    (sign_contract env s).2.1.sellers = s1.sellers ∧
    (sign_contract env s).2.1.buyers = s1.buyers ∧
    (sign_contract env s).2.1.status =
      (if is_first_signature s = true then ContractStatus.Signing
       else if all_parties_signed s1 = true then ContractStatus.Signed
       else s.status) := by
  have hst : s1.status = s.status := (find_and_sign_party_ok_ids env s s1 hf).2.2.2.2.2.1
  simp only [sign_contract, hp, Bool.false_eq_true, if_false, hv, hf,
    all_parties_signed_log_direct]
  refine ⟨trivial, ?_, ?_, ?_⟩ <;>
    split <;> (try split) <;> simp [log_function_call, log_direct_field_change, hst]

/-- C4: when the signing preconditions pass — (a) on a first-ever signature a successful
call sets the contract status to Signing; (b) when after recording the signature every
seller and buyer has signed, the status becomes Signed; and (c) a caller whose matching
party (sellers scanned before buyers) has already signed gets the InvalidInput business
response and no party record changes. -/
theorem C4_signing_status_transitions (env : Env) (s : PropertySale)
    (hp : s.paused = false)
    (hv : validate_contract_ready_for_signing s = Except.ok ()) :
    (is_first_signature s = true →
      (sign_contract env s).1 = Except.ok { success := true, error_message := none } →
      (sign_contract env s).2.1.status = ContractStatus.Signing) ∧
    ((sign_contract env s).1 = Except.ok { success := true, error_message := none } →
      all_parties_signed (sign_contract env s).2.1 = true →
      (sign_contract env s).2.1.status = ContractStatus.Signed) ∧
    (first_match_already_signed env.caller s = true →
      (sign_contract env s).1 = Except.ok (SignContractResponse.mk false
        (some "Party has already signed or invalid signing attempt")) ∧
      (sign_contract env s).2.1.sellers = s.sellers ∧
      (sign_contract env s).2.1.buyers = s.buyers) := by
  obtain ⟨hsne, hbne⟩ := validate_ok_nonempty s hv
  refine ⟨?_, ?_, ?_⟩
  · intro hfirst hok
    cases hf : (find_and_sign_party env s).1 with
    | error e =>
      obtain ⟨h1, -⟩ := sign_contract_err_shape env s e hp hv hf
      rw [h1] at hok
      simp at hok
    | ok s1 =>
      obtain ⟨-, -, -, h4⟩ := sign_contract_ok_shape env s s1 hp hv hf
      rw [h4, if_pos hfirst]
  · intro hok hall
    cases hf : (find_and_sign_party env s).1 with
    | error e =>
      obtain ⟨h1, -⟩ := sign_contract_err_shape env s e hp hv hf
      rw [h1] at hok
      simp at hok
    | ok s1 =>
      obtain ⟨-, hsel, hbuy, h4⟩ := sign_contract_ok_shape env s s1 hp hv hf
      have hall1 : all_parties_signed s1 = true := by
        unfold all_parties_signed at hall ⊢
        rw [hsel, hbuy] at hall
        exact hall
      by_cases hfirst : is_first_signature s
      · exfalso
        obtain ⟨-, -, -, -, -, -, hor⟩ := find_and_sign_party_ok_ids env s s1 hf
        unfold is_first_signature at hfirst
        rw [Bool.and_eq_true] at hfirst
        obtain ⟨hfs, hfb⟩ := hfirst
        unfold all_parties_signed at hall1
        rw [Bool.and_eq_true] at hall1
        obtain ⟨has, hab⟩ := hall1
        cases hor with
        | inl hse =>
          obtain ⟨q, hq⟩ := List.exists_mem_of_ne_nil s.sellers hsne
          have h1 := List.all_eq_true.mp hfs q hq
          have h2 := List.all_eq_true.mp has q (by rw [hse]; exact hq)
          simp only [Option.isNone_iff_eq_none] at h1
          rw [h1] at h2
          simp at h2
        | inr hbe =>
          obtain ⟨q, hq⟩ := List.exists_mem_of_ne_nil s.buyers hbne
          have h1 := List.all_eq_true.mp hfb q hq
          have h2 := List.all_eq_true.mp hab q (by rw [hbe]; exact hq)
          simp only [Option.isNone_iff_eq_none] at h1
          rw [h1] at h2
          simp at h2
      · rw [h4, if_neg (by simpa using hfirst), if_pos hall1]
  · intro hsig
    have hf : (find_and_sign_party env s).1 = Except.error ContractError.InvalidInput := by
      unfold first_match_already_signed at hsig
      unfold find_and_sign_party
      dsimp only
      cases hfind : s.sellers.find? (fun p => p.wallet_address == env.caller) with
      | some p =>
        simp only [hfind] at hsig
        rw [sign_first_match_signed_err env.caller env.block_timestamp s.sellers p
          hfind hsig]
      | none =>
        simp only [hfind] at hsig
        rw [sign_first_match_none_of_find_none env.caller env.block_timestamp s.sellers
          hfind]
        dsimp only
        cases hfindb : s.buyers.find? (fun p => p.wallet_address == env.caller) with
        | some p =>
          simp only [hfindb] at hsig
          rw [sign_first_match_signed_err env.caller env.block_timestamp s.buyers p
            hfindb hsig]
        | none =>
          simp only [hfindb] at hsig
          exact absurd hsig (by simp)
    obtain ⟨h1, h2, h3, -⟩ := sign_contract_err_shape env s
      ContractError.InvalidInput hp hv hf
    exact ⟨by rw [h1]; rfl, h2, h3⟩

/-- C4 witness: on the concrete signing-ready contract the seller signs first and the
status becomes Signing. -/
theorem C4_signing_status_transitions_witness :
    (sign_contract envSeller exSignReady).2.1.status = ContractStatus.Signing :=
  (C4_signing_status_transitions envSeller exSignReady rfl rfl).1 rfl rfl

/-- Helper: the party scans emit only authorization-attempt events. -/
theorem caller_in_parties_events (caller : Nat) :
    ∀ (l : List Party) (e : Event), e ∈ (caller_in_parties caller l).2 →
      ∃ a b m, e = Event.AuthorizationAttempt a b m := by
  intro l
  induction l with
  | nil => intro e he; simp [caller_in_parties] at he
  | cons p rest ih =>
    intro e he
    simp only [caller_in_parties, is_caller_matching_account] at he
    by_cases hm : (caller == p.wallet_address) = true
    · simp only [hm, if_true] at he
      simp only [List.mem_singleton] at he
      exact ⟨caller, p.wallet_address, true, he⟩
    · simp only [hm, Bool.false_eq_true, if_false, List.mem_append,
        List.mem_singleton] at he
      rcases he with he | he
      · exact ⟨caller, p.wallet_address, false, he⟩
      · exact ih e he

/-- C2 counterexample: a registered buyer submitting without an amount is a business
failure (Ok, success false, message set), yet the call still appends one FunctionCall
audit entry — audit_log_count rises from 0 to 1 — contradicting the claim that no audit
entry is appended on business-rule failures. -/
theorem C2_business_failure_counterexample :
    (manage_offer envBuyer exState0 ⟨OfferAction.Submit, none⟩).1 =
      Except.ok (ManageOfferResponse.mk false
        (some "Offer amount is required for Submit action")) ∧
    exState0.audit_log_count = 0 ∧
    (manage_offer envBuyer exState0 ⟨OfferAction.Submit, none⟩).2.1.audit_log_count
      = 1 := by
  refine ⟨rfl, by decide, by decide⟩

/-- C2 amended: every business-rule failure of manage_offer or sign_contract returns Ok
with success false and a non-empty error message and leaves every domain field unchanged,
and a request-submitted notification is always emitted; however the offer authorization
failures and the signing precondition failures return early — appending no audit entry
and emitting no response-generated notification — while the remaining business failures
(missing amount on Submit, missing offer on Accept/Reject/Cancel, unauthorized or
duplicate signer in sign_contract) mutate the state exactly by one log_function_call,
which appends one FunctionCall audit entry, and do emit a response-generated
notification. -/
theorem C2_business_failure_envelopes (env : Env) (s : PropertySale)
    (hp : s.paused = false) :
    (∀ request : ManageOfferRequest,
      (request.action = OfferAction.Submit ∨ request.action = OfferAction.Cancel) →
      (is_caller_buyer s env.caller).1 = false →
      manage_offer env s request =
        (Except.ok (ManageOfferResponse.mk false
          (some "Only buyers can submit or cancel offers")), s,
         Event.ManageOfferRequestSubmitted env.caller env.block_number ::
           (is_caller_buyer s env.caller).2) ∧
      (∀ b : Bool, Event.ManageOfferResponseGenerated env.block_number b ∉
        Event.ManageOfferRequestSubmitted env.caller env.block_number ::
          (is_caller_buyer s env.caller).2)) ∧
    (∀ request : ManageOfferRequest,
      (request.action = OfferAction.Accept ∨ request.action = OfferAction.Reject) →
      (is_caller_seller s env.caller).1 = false →
      manage_offer env s request =
        (Except.ok (ManageOfferResponse.mk false
          (some "Only sellers can accept or reject offers")), s,
         Event.ManageOfferRequestSubmitted env.caller env.block_number ::
           (is_caller_seller s env.caller).2) ∧
      (∀ b : Bool, Event.ManageOfferResponseGenerated env.block_number b ∉
        Event.ManageOfferRequestSubmitted env.caller env.block_number ::
          (is_caller_seller s env.caller).2)) ∧
    ((is_caller_buyer s env.caller).1 = true →
      manage_offer env s ⟨OfferAction.Submit, none⟩ =
        (Except.ok (ManageOfferResponse.mk false
          (some "Offer amount is required for Submit action")),
         (log_function_call env s "manage_offer" env.block_number).1,
         Event.ManageOfferRequestSubmitted env.caller env.block_number ::
           (is_caller_buyer s env.caller).2 ++
           (log_function_call env s "manage_offer" env.block_number).2 ++
           [Event.ManageOfferResponseGenerated env.block_number true])) ∧
    (∀ request : ManageOfferRequest,
      (request.action = OfferAction.Accept ∨ request.action = OfferAction.Reject) →
      (is_caller_seller s env.caller).1 = true → s.offer = none →
      manage_offer env s request =
        (Except.ok (ManageOfferResponse.mk false
          (some "No existing offer to update")),
         (log_function_call env s "manage_offer" env.block_number).1,
         Event.ManageOfferRequestSubmitted env.caller env.block_number ::
           (is_caller_seller s env.caller).2 ++
           (log_function_call env s "manage_offer" env.block_number).2 ++
           [Event.ManageOfferResponseGenerated env.block_number true])) ∧
    ((is_caller_buyer s env.caller).1 = true → s.offer = none →
      manage_offer env s ⟨OfferAction.Cancel, none⟩ =
        (Except.ok (ManageOfferResponse.mk false
          (some "No existing offer to update")),
         (log_function_call env s "manage_offer" env.block_number).1,
         Event.ManageOfferRequestSubmitted env.caller env.block_number ::
           (is_caller_buyer s env.caller).2 ++
           (log_function_call env s "manage_offer" env.block_number).2 ++
           [Event.ManageOfferResponseGenerated env.block_number true])) ∧
    (∀ msg : String, validate_contract_ready_for_signing s = Except.error msg →
      sign_contract env s =
        (Except.ok (SignContractResponse.mk false (some msg)), s,
         [Event.SignContractRequestSubmitted env.caller env.block_number]) ∧
      (∀ b : Bool, Event.SignContractResponseGenerated env.block_number b ∉
        [Event.SignContractRequestSubmitted env.caller env.block_number])) ∧
    (∀ e : ContractError, validate_contract_ready_for_signing s = Except.ok () →
      (find_and_sign_party env s).1 = Except.error e →
      sign_contract env s =
        (Except.ok (SignContractResponse.mk false (some (sign_error_message e))),
         (log_function_call env s "sign_contract" env.block_number).1,
         Event.SignContractRequestSubmitted env.caller env.block_number ::
           (find_and_sign_party env s).2 ++
           (log_function_call env s "sign_contract" env.block_number).2 ++
           [Event.SignContractResponseGenerated env.block_number false])) ∧
    (∀ (f : String) (r : Nat),
      (log_function_call env s f r).1.sellers = s.sellers ∧
      (log_function_call env s f r).1.buyers = s.buyers ∧
      (log_function_call env s f r).1.offer = s.offer ∧
      (log_function_call env s f r).1.status = s.status ∧
      (log_function_call env s f r).1.purchase_price = s.purchase_price ∧
      (log_function_call env s f r).1.paused = s.paused ∧
      (log_function_call env s f r).1.audit_log_count = satAdd s.audit_log_count 1 ∧
      (log_function_call env s f r).1.audit_log s.audit_log_count =
        some (AuditLogEntry.FunctionCall env.caller env.block_timestamp f r
          s.pending_field_changes) ∧
      ∀ i, i ≠ s.audit_log_count →
        (log_function_call env s f r).1.audit_log i = s.audit_log i) := by
  refine ⟨?_, ?_, ?_, ?_, ?_, ?_, ?_, ?_⟩
  · intro request hact hb
    rcases request with ⟨action, offer_opt⟩
    constructor
    · rcases hact with h | h <;> (dsimp only at h; subst h) <;>
        simp [manage_offer, hp, hb]
    · intro b hmem
      rcases List.mem_cons.mp hmem with h | h
      · exact absurd h (by simp)
      · obtain ⟨a, st, m, he⟩ := caller_in_parties_events env.caller s.buyers _ h
        exact absurd he (by simp)
  · intro request hact hsl
    rcases request with ⟨action, offer_opt⟩
    constructor
    · rcases hact with h | h <;> (dsimp only at h; subst h) <;>
        simp [manage_offer, hp, hsl]
    · intro b hmem
      rcases List.mem_cons.mp hmem with h | h
      · exact absurd h (by simp)
      · obtain ⟨a, st, m, he⟩ := caller_in_parties_events env.caller s.sellers _ h
        exact absurd he (by simp)
  · intro hb
    simp [manage_offer, manage_offer_finish, manage_offer_submit, hp, hb]
  · intro request hact hsl hoff
    rcases request with ⟨action, offer_opt⟩
    rcases hact with h | h <;> (dsimp only at h; subst h) <;>
      simp [manage_offer, manage_offer_finish, manage_offer_update, hp, hsl, hoff]
  · intro hb hoff
    simp [manage_offer, manage_offer_finish, manage_offer_update, hp, hb, hoff]
  · intro msg hv
    refine ⟨by simp [sign_contract, hp, hv], ?_⟩
    intro b hmem
    exact absurd (List.mem_singleton.mp hmem) (by simp)
  · intro e hv hf
    simp only [sign_contract, hp, Bool.false_eq_true, if_false, hv, hf]
    cases e <;> simp [sign_error_message]
  · intro f r
    refine ⟨rfl, rfl, rfl, rfl, rfl, rfl, rfl, ?_, ?_⟩
    · simp [log_function_call, mapInsert]
    · intro i hi
      simp [log_function_call, mapInsert, hi]

/-- C2 amended witness: the amended theorem applied to the concrete missing-amount case. -/
theorem C2_business_failure_envelopes_witness :
    manage_offer envBuyer exState0 ⟨OfferAction.Submit, none⟩ =
      (Except.ok (ManageOfferResponse.mk false
        (some "Offer amount is required for Submit action")),
       (log_function_call envBuyer exState0 "manage_offer" envBuyer.block_number).1,
       Event.ManageOfferRequestSubmitted envBuyer.caller envBuyer.block_number ::
         (is_caller_buyer exState0 envBuyer.caller).2 ++
         (log_function_call envBuyer exState0 "manage_offer" envBuyer.block_number).2 ++
         [Event.ManageOfferResponseGenerated envBuyer.block_number true]) :=
  (C2_business_failure_envelopes envBuyer exState0 rfl).2.2.1 (by decide)

end PropertySaleContract
